import Mathlib

/-!
Verification of the libsplinter shared-memory key-value store (`src/splinter.c`,
`src/splinter.h`) against its natural-language specification.

The C library operates on a single memory-mapped region consisting of a header,
a slot table, and a flat value arena.  We embed the region as an explicit
`Store` value and each public operation as a pure function from (an optional)
`Store` to a result and an updated `Store`, with the same control flow as the
C source.  Conventions of the embedding:

* A byte is a `Nat` (value `0`–`255`; writers supplied by the C type system
  always stay below 256, and the embedding reduces mod 256 wherever the C code
  performs an unsigned-char or `uint64_t` conversion).
* A C string is a `List Nat` of its non-NUL bytes, excluding the terminator.
* The value arena is a total function `Nat → Nat` from byte offset to byte
  value.  A freshly created backing object is zero-filled (`ftruncate`), so the
  arena starts as the constant-zero function.
* The mapped-region global pointer `H` being NULL is modelled by `Option Store`
  being `none`.
* The sequential (single-thread, quiescent) semantics is modelled: an atomic
  compare-and-swap on an even epoch succeeds.  Seqlock epochs (and the
  `val_brk` bump counter, a `uint32_t` advanced by 8 per conversion) are
  modelled as unbounded `Nat` counters: wrap-around of the C counters is
  unreachable in fewer than `2^29` operations, and the only data-dependent use
  of an epoch in the code is its parity, which `% 2^64` preserves.  Arithmetic
  performed on stored integer *values* (`splinter_integer_op`) is reduced mod
  `2^64` exactly as the `uint64_t` arithmetic of the source.
-/

set_option maxRecDepth 100000

namespace Splinter

/-- 64-bit FNV-1a hash of a key, from `fnv1a` in `splinter.c`: offset basis
`14695981039346656037`, prime `1099511628211`, one round per key byte
(the byte is taken as `unsigned char`, hence the `% 256`), with `uint64_t`
wrap-around modelled by `% 2 ^ 64`. -/
def fnv1a (key : List Nat) : Nat :=
  key.foldl (fun h c => ((h ^^^ (c % 256)) * 1099511628211) % 2 ^ 64)
    14695981039346656037

/-- Initial probe index for a hash, from `slot_idx` in `splinter.c`. -/
def slot_idx (hash slots : Nat) : Nat := hash % slots

/-- Model of `strncmp(a, b, n) == 0` for NUL-free, NUL-terminated C strings
`a` and `b`: `strncmp` compares at most `n` characters and stops at the
terminator, which is equivalent to comparing the first `n` characters of the
terminated sequences. -/
def cstrncmpEq (a b : List Nat) (n : Nat) : Bool :=
  (a ++ [0]).take n == (b ++ [0]).take n

/-- Read `len` consecutive bytes of the value arena starting at `off`. -/
def readBytes (f : Nat → Nat) (off len : Nat) : List Nat :=
  (List.range len).map (fun j => f (off + j))

/-- Model of `memcpy` into the value arena: overwrite the `bs.length` bytes
starting at `off`. -/
def writeBytes (f : Nat → Nat) (off : Nat) (bs : List Nat) : Nat → Nat :=
  fun a => if off ≤ a ∧ a < off + bs.length then bs.getD (a - off) 0 else f a

/-- Model of `memset(…, 0, len)` on the value arena. -/
def zeroBytes (f : Nat → Nat) (off len : Nat) : Nat → Nat :=
  fun a => if off ≤ a ∧ a < off + len then 0 else f a

/-- Little-endian interpretation of a byte list as a `uint64_t` (the
x86-64 host of the library is little-endian); bytes past index 7 never occur
in calls.  Each byte is reduced mod 256 as in the C representation. -/
def bytesToU64 (bs : List Nat) : Nat :=
  bs.foldr (fun b acc => b % 256 + 256 * acc) 0

/-- Little-endian byte encoding of a `uint64_t` store `*ptr = v`. -/
def u64ToBytes (v : Nat) : List Nat :=
  (List.range 8).map (fun j => v / 256 ^ j % 256)

/-! ## Constants from `splinter.h` -/

def SPLINTER_MAGIC : Nat := 0x534C4E54
def SPLINTER_VER : Nat := 2
def SPLINTER_KEY_MAX : Nat := 64
def SPLINTER_MAX_GROUPS : Nat := 64
def SPL_SYS_AUTO_SCRUB : Nat := 1
def SPL_SYS_HYBRID_SCRUB : Nat := 2
def SPL_SLOT_TYPE_VOID : Nat := 1
def SPL_SLOT_TYPE_BIGUINT : Nat := 4
def SPL_SLOT_DEFAULT_TYPE : Nat := SPL_SLOT_TYPE_VOID
def SPL_TIME_CTIME : Nat := 0
def SPL_TIME_ATIME : Nat := 1

/-- `sizeof(struct splinter_header)` on the x86-64 System V ABI: fields up to
`bloom_watches` occupy 120 bytes, `signal_groups` is `alignas(64)` at offset
128 with 64 cache lines of 64 bytes, giving 4224. -/
def HDR_SIZE : Nat := 4224

/-- `sizeof(struct splinter_slot)` on the x86-64 System V ABI with the
`SPLINTER_EMBEDDINGS` build flag of the shipped Makefile: 128 bytes of
metadata and key plus `768 * 4` bytes of embedding floats. -/
def SLOT_SIZE : Nat := 3200

/-! ## Data model -/

/-- One entry of the slot table, `struct splinter_slot`.  The `embedding`
field models the 768-float vector opaquely as the list of bytes/words stored
by `splinter_set_embedding`; no claim depends on its numeric reading. -/
structure Slot where
  hash : Nat
  epoch : Nat
  val_off : Nat
  val_len : Nat
  type_flag : Nat
  user_flag : Nat
  watcher_mask : Nat
  ctime : Nat
  atime : Nat
  bloom : Nat
  key : List Nat
  embedding : List Nat
  deriving Inhabited, DecidableEq

/-- The region header, `struct splinter_header`.  `bloom_watches` and
`signal_groups` are total functions on `Nat`; only indices `0`–`63` are ever
read or written, matching the 64-entry C arrays. -/
structure Header where
  magic : Nat
  version : Nat
  slots : Nat
  max_val_sz : Nat
  epoch : Nat
  core_flags : Nat
  user_flags : Nat
  val_brk : Nat
  val_sz : Nat
  alignment : Nat
  parse_failures : Nat
  last_failure_epoch : Nat
  bloom_watches : Nat → Nat
  signal_groups : Nat → Nat

/-- The whole mapped region: header `H`, slot table `S`, value arena
`VALUES`. -/
structure Store where
  header : Header
  slotTable : List Slot
  values : Nat → Nat

def Store.getSlot (st : Store) (p : Nat) : Slot := st.slotTable.getD p default

def Store.setSlot (st : Store) (p : Nat) (s : Slot) : Store :=
  { st with slotTable := st.slotTable.set p s }

/-- Initial state of slot `i` after `splinter_create`: the backing object is
zero-filled, the loop sets `val_off = i * max_value_sz`, ORs the default VOID
type into the (zero) type flag and clears everything else. -/
def initSlot (i max_value_sz : Nat) : Slot :=
  { hash := 0, epoch := 0, val_off := i * max_value_sz, val_len := 0,
    type_flag := SPL_SLOT_DEFAULT_TYPE, user_flag := 0, watcher_mask := 0,
    ctime := 0, atime := 0, bloom := 0, key := [], embedding := [] }

/-- The region produced by a successful `splinter_create(name, slots,
max_value_sz)`: header fields as written by the code (`epoch` starts at 1,
`val_brk` at 0, `val_sz` is the **total** file size
`sizeof(header) + slots*sizeof(slot) + slots*max_value_sz`, the `alignment`
field is never written and stays zero-filled), every `bloom_watches` entry set
to the `0xFF` sentinel, and all slots empty. -/
def createStore (slots max_value_sz : Nat) : Store :=
  { header :=
      { magic := SPLINTER_MAGIC, version := SPLINTER_VER, slots := slots,
        max_val_sz := max_value_sz, epoch := 1, core_flags := 0,
        user_flags := 0, val_brk := 0,
        val_sz := HDR_SIZE + slots * SLOT_SIZE + slots * max_value_sz,
        alignment := 0, parse_failures := 0, last_failure_epoch := 0,
        bloom_watches := fun _ => 0xFF, signal_groups := fun _ => 0 },
    slotTable := (List.range slots).map (fun i => initSlot i max_value_sz),
    values := fun _ => 0 }

/-- Result of the backing-object creation call in `splinter_create`, modelled
from the flags in the source: the anonymous build calls
`shm_open(name, O_RDWR | O_CREAT | O_EXCL, 0666)`, which per POSIX fails iff
the object already exists; the `SPLINTER_PERSISTENT` build calls
`open(path, O_RDWR | O_CREAT, 0666)` without `O_EXCL`, which succeeds whether
or not the file exists. -/
def backingCreateOpenOk (persistent objectExists : Bool) : Bool :=
  if persistent then true else !objectExists

/-- Return value of `splinter_create` as a function of the build mode and
whether the backing object already exists (`ftruncate`/`mmap` assumed to
succeed): `-2` for zero geometry (`errno = ENOTSUP`), `-1` when the
backing-object creation call fails, `0` otherwise. -/
def splinter_create_ret (persistent objectExists : Bool)
    (slots max_value_sz : Nat) : Int :=
  if slots = 0 ∨ max_value_sz = 0 then -2
  else if backingCreateOpenOk persistent objectExists then 0
  else -1

/-! ## Probing -/

/-- The probe sequence of every operation: positions `(hash % slots + i) %
slots` for `i = 0, …, slots - 1`. -/
def probePositions (slots hash : Nat) : List Nat :=
  (List.range slots).map (fun i => (slot_idx hash slots + i) % slots)

/-- The match test of the reader-side loops: stored hash equals the probe hash
and `strncmp(slot->key, key, SPLINTER_KEY_MAX) == 0`. -/
def slotMatches (st : Store) (hash : Nat) (key : List Nat) (p : Nat) : Bool :=
  (st.getSlot p).hash == hash && cstrncmpEq (st.getSlot p).key key SPLINTER_KEY_MAX

/-- First probe position whose slot matches the key, i.e. the slot every
lookup-style loop of the source settles on (`splinter_get`, `splinter_unset`,
`splinter_poll`, `splinter_integer_op`, `splinter_set_label`,
`splinter_set_named_type`, the watch calls, …). -/
def probeFind (st : Store) (hash : Nat) (key : List Nat) : Option Nat :=
  (probePositions st.header.slots hash).find? (slotMatches st hash key)

/-! ## Signal arena -/

/-- One `atomic_fetch_add(&signal_groups[tgt].counter, 1)`. -/
def pulseStep (tgt : Nat) (sg : Nat → Nat) : Nat → Nat :=
  fun g => if g = tgt then sg g + 1 else sg g

/-- `splinter_pulse_watchers`: first pulse group `i` for every bit `i` set in
the slot's `watcher_mask`, then for every bit `b` set in the slot's `bloom`
look up `bloom_watches[b]` and pulse that group when it is a valid group id
(`g < SPLINTER_MAX_GROUPS`; the `0xFF` sentinel fails this test). -/
def splinter_pulse_watchers (hdr : Header) (slot : Slot) : Header :=
  let sg1 := (List.range 64).foldl
    (fun acc i => if slot.watcher_mask.testBit i then pulseStep i acc else acc)
    hdr.signal_groups
  let sg2 := (List.range 64).foldl
    (fun acc b =>
      if slot.bloom.testBit b && decide (hdr.bloom_watches b < SPLINTER_MAX_GROUPS) then
        pulseStep (hdr.bloom_watches b) acc
      else acc)
    sg1
  { hdr with signal_groups := sg2 }

/-! ## `splinter_set` -/

/-- The scrub pass executed inside `splinter_set`'s critical section before
the payload `memcpy`: nothing unless the auto-scrub master bit is set; with
the hybrid bit also set, zero `min((len + 63) & ~63, max_val_sz)` bytes
(`(len + 63) & ~63 = ((len + 63) / 64) * 64`); otherwise zero the whole
per-slot region. -/
def scrubDst (st : Store) (off len : Nat) : Nat → Nat :=
  if st.header.core_flags.testBit 0 then
    if st.header.core_flags.testBit 1 then
      zeroBytes st.values off (min ((len + 63) / 64 * 64) st.header.max_val_sz)
    else
      zeroBytes st.values off st.header.max_val_sz
  else st.values

/-- The committed-write state of `splinter_set` at probe position `p`:
scrub (per flags), `memcpy` the payload, publish `val_len`, overwrite the key
(truncated to `SPLINTER_KEY_MAX - 1` bytes and NUL-terminated), publish
`hash`, bump the slot epoch back to even (`+2` in total from entry), run
`splinter_pulse_watchers`, and bump the global epoch. -/
def setCommit (st : Store) (p hash : Nat) (key val : List Nat) : Store :=
  let slot := st.getSlot p
  let vals := writeBytes (scrubDst st slot.val_off val.length) slot.val_off val
  let slot' := { slot with
    val_len := val.length,
    key := key.take (SPLINTER_KEY_MAX - 1),
    hash := hash,
    epoch := slot.epoch + 2 }
  let st1 := { (st.setSlot p slot') with values := vals }
  let hdr1 := splinter_pulse_watchers st1.header slot'
  { st1 with header := { hdr1 with epoch := hdr1.epoch + 1 } }

/-- The probe loop of `splinter_set` along the remaining probe positions.  A
position is acceptable when its slot is empty (`hash == 0`) or stores the same
hash and key; an acceptable slot whose epoch is odd is skipped and probing
continues (in the sequential model the subsequent compare-and-swap on an even
epoch succeeds; the source's `compare_exchange_weak` does not fail spuriously
on the x86-64 target); after the seqlock is taken, a slot whose assigned arena
partition cannot hold the value aborts the write (leaving the epoch even
again, `+2` from entry). -/
def setLoop (st : Store) (hash : Nat) (key val : List Nat) :
    List Nat → Int × Store
  | [] => (-1, st)
  | p :: rest =>
    let slot := st.getSlot p
    if slot.hash = 0 ∨ (slot.hash = hash ∧ cstrncmpEq slot.key key SPLINTER_KEY_MAX) then
      if slot.epoch % 2 = 1 then setLoop st hash key val rest
      else
        let arena_sz := st.header.slots * st.header.max_val_sz
        if arena_sz ≤ slot.val_off ∨ arena_sz < slot.val_off + val.length then
          (-1, st.setSlot p { slot with epoch := slot.epoch + 2 })
        else
          (0, setCommit st p hash key val)
    else setLoop st hash key val rest

/-- `splinter_set(key, val, len)` with `len = val.length`: reject a NULL
region, an empty value or one longer than `max_val_sz`, then run the probe
loop. -/
def splinter_set (os : Option Store) (key val : List Nat) :
    Int × Option Store :=
  match os with
  | none => (-1, none)
  | some st =>
    if val.length = 0 ∨ st.header.max_val_sz < val.length then (-1, some st)
    else
      let r := setLoop st (fnv1a key) key val
        (probePositions st.header.slots (fnv1a key))
      (r.1, some r.2)

/-! ## `splinter_get` -/

/-- Outcome of `splinter_get`; `retCode` below gives the C return value, the
error constructors distinguish the accompanying `errno`. -/
inductive GetResult where
  | ok
  | notFound
  | againErr
  | msgSizeErr
  deriving DecidableEq, Inhabited

def GetResult.retCode : GetResult → Int
  | .ok => 0
  | _ => -1

/-- `splinter_get(key, buf, buf_sz, &out_sz)`.  The returned triple carries
the result, the value written through `out_sz` (`none` when the code returns
without writing it), and the caller's buffer after the call (`memcpy` of the
payload on the copy path, untouched otherwise).  The final epoch re-check of
the seqlock read is kept even though it is vacuous sequentially. -/
def splinter_get (os : Option Store) (key : List Nat) (buf : Option (List Nat))
    (buf_sz : Nat) : GetResult × Option Nat × Option (List Nat) :=
  match os with
  | none => (.notFound, none, buf)
  | some st =>
    match probeFind st (fnv1a key) key with
    | none => (.notFound, none, buf)
    | some p =>
      let slot := st.getSlot p
      let start := slot.epoch
      if start % 2 = 1 then (.againErr, none, buf)
      else
        let len := slot.val_len
        match buf with
        | none =>
          if start = slot.epoch ∧ slot.epoch % 2 = 0 then (.ok, some len, none)
          else (.againErr, some len, none)
        | some b =>
          if buf_sz < len then (.msgSizeErr, some len, some b)
          else
            let b' := readBytes st.values slot.val_off len ++ b.drop len
            if start = slot.epoch ∧ slot.epoch % 2 = 0 then (.ok, some len, some b')
            else (.againErr, some len, some b')

/-! ## `splinter_unset` -/

/-- `splinter_unset(key)`: find the slot, fail with `EAGAIN` on an odd epoch,
otherwise record `val_len` as the return value, clear `hash`, scrub the value
region and key when auto-scrub is on (the stored key string becomes empty
either way: the non-scrub branch writes the NUL at offset 0), reset the type
flag to VOID, store 0 to the slot epoch, clear the metadata, and finally add 2
to the epoch — the slot epoch after a successful unset is always 2. -/
def splinter_unset (os : Option Store) (key : List Nat) : Int × Option Store :=
  match os with
  | none => (-2, none)
  | some st =>
    match probeFind st (fnv1a key) key with
    | none => (-1, some st)
    | some p =>
      let slot := st.getSlot p
      if slot.epoch % 2 = 1 then (-1, some st)
      else
        let ret : Int := slot.val_len
        let vals :=
          if st.header.core_flags.testBit 0 then
            zeroBytes st.values slot.val_off st.header.max_val_sz
          else st.values
        let slot' : Slot :=
          { slot with
            hash := 0, key := [],
            type_flag := SPL_SLOT_DEFAULT_TYPE,
            epoch := 0 + 2,
            val_len := 0, ctime := 0, atime := 0, user_flag := 0,
            watcher_mask := 0, bloom := 0 }
        (ret, some { (st.setSlot p slot') with values := vals })

/-! ## `splinter_integer_op` -/

inductive IntegerOp where
  | opAnd
  | opOr
  | opXor
  | opNot
  | opInc
  | opDec
  deriving DecidableEq, Inhabited

/-- The `uint64_t` arithmetic of `splinter_integer_op`'s switch. -/
def applyIntegerOp (op : IntegerOp) (v m : Nat) : Nat :=
  match op with
  | .opOr => v ||| m
  | .opAnd => v &&& m
  | .opXor => v ^^^ m
  | .opNot => v ^^^ (2 ^ 64 - 1)
  | .opInc => (v + m) % 2 ^ 64
  | .opDec => (v + (2 ^ 64 - m % 2 ^ 64)) % 2 ^ 64

/-- `splinter_integer_op(key, op, mask)`: `m64` is the 8-byte read through the
`mask` pointer (0 for NULL); the slot must carry the BIGUINT type bit, the
seqlock is taken, the 8 value bytes are read as a native `uint64_t`, the
operation applied, the result stored back, and slot and global epochs
bumped. -/
def splinter_integer_op (os : Option Store) (key : List Nat) (op : IntegerOp)
    (mask : Option Nat) : Int × Option Store :=
  match os with
  | none => (-2, none)
  | some st =>
    let m64 := (match mask with | some m => m % 2 ^ 64 | none => 0)
    match probeFind st (fnv1a key) key with
    | none => (-1, some st)
    | some p =>
      let slot := st.getSlot p
      if ¬ slot.type_flag.testBit 2 then (-1, some st)
      else if slot.epoch % 2 = 1 then (-1, some st)
      else
        let v := bytesToU64 (readBytes st.values slot.val_off 8)
        let vals := writeBytes st.values slot.val_off
          (u64ToBytes (applyIntegerOp op v m64))
        let slot' := { slot with epoch := slot.epoch + 2 }
        (0, some { (st.setSlot p slot') with
                   values := vals,
                   header := { st.header with epoch := st.header.epoch + 1 } })

/-! ## `splinter_set_label` -/

/-- `splinter_set_label(key, mask)`: atomically OR the mask into the slot's
bloom filter and bump the global epoch. -/
def splinter_set_label (os : Option Store) (key : List Nat) (mask : Nat) :
    Int × Option Store :=
  match os with
  | none => (-1, none)
  | some st =>
    match probeFind st (fnv1a key) key with
    | none => (-1, some st)
    | some p =>
      let slot := st.getSlot p
      let slot' := { slot with bloom := slot.bloom ||| mask % 2 ^ 64 }
      (0, some { (st.setSlot p slot') with
                 header := { st.header with epoch := st.header.epoch + 1 } })

/-! ## `splinter_set_named_type` and the BIGUINT conversion -/

/-- ASCII decimal-digit test `c >= '0' && c <= '9'` of the conversion path. -/
def isDigitByte (c : Nat) : Bool := 48 ≤ c && c ≤ 57

def decDigitVal (c : Nat) : Option Nat :=
  if 48 ≤ c ∧ c ≤ 57 then some (c - 48) else none

def octDigitVal (c : Nat) : Option Nat :=
  if 48 ≤ c ∧ c ≤ 55 then some (c - 48) else none

def hexDigitVal (c : Nat) : Option Nat :=
  if 48 ≤ c ∧ c ≤ 57 then some (c - 48)
  else if 97 ≤ c ∧ c ≤ 102 then some (c - 87)
  else if 65 ≤ c ∧ c ≤ 70 then some (c - 55)
  else none

/-- Positional accumulation of a maximal run of digits, as `strtoull` performs
it: stop at the first non-digit. -/
def parseDigitsAcc (base : Nat) (digitVal : Nat → Option Nat) :
    List Nat → Nat → Nat
  | [], acc => acc
  | c :: rest, acc =>
    match digitVal c with
    | some d => parseDigitsAcc base digitVal rest (acc * base + d)
    | none => acc

/-- Model of `strtoull(s, NULL, 0)` for the strings the conversion path feeds
it (the first character is always a decimal digit, so the
whitespace/sign-skipping prefix of `strtoull` never fires): base 0 means C
integer-literal syntax — a `0x`/`0X` prefix followed by a hex digit selects
base 16, a bare `0x` parses as the numeral `0`, a leading `0` selects base 8,
anything else base 10.  The at-most-15-byte inputs of the call site cannot
overflow, so the `ULLONG_MAX` saturation of `strtoull` is not modelled. -/
def strtoull0 (s : List Nat) : Nat :=
  match s with
  | [] => 0
  | c0 :: rest =>
    if c0 = 48 then
      match rest with
      | [] => 0
      | c1 :: rest2 =>
        if c1 = 120 ∨ c1 = 88 then
          match rest2 with
          | [] => 0
          | c2 :: _ =>
            if (hexDigitVal c2).isSome then parseDigitsAcc 16 hexDigitVal rest2 0
            else 0
        else parseDigitsAcc 8 octDigitVal rest 0
    else parseDigitsAcc 10 decDigitVal s 0

/-- The 64-bit value the BIGUINT conversion derives from the slot's existing
bytes (`old` is the arena content at `val_off`, `len` the current `val_len`):
when the first byte is an ASCII digit, the first `min(len, 15)` bytes are
copied into a zeroed 16-byte buffer and parsed with `strtoull(tmp, NULL, 0)`
(the C string stops at the first NUL among the copied bytes); otherwise the
first `min(len, 8)` raw bytes are copied little-endian into a zeroed
`uint64_t`. -/
def convertValue (old : List Nat) (len : Nat) : Nat :=
  if 0 < len ∧ isDigitByte (old.getD 0 0) then
    strtoull0 ((old.take (min len 15)).takeWhile (fun c => c ≠ 0))
  else bytesToU64 (old.take (min len 8))

/-- `splinter_set_named_type(key, mask)`.  When the mask requests BIGUINT and
the current `val_len` is below 8, the payload is relocated: `val_brk` is
bumped by 8 (`atomic_fetch_add` returns the old value, which becomes the new
offset), the bump is checked against `val_sz` (the *total* region size, as
initialised by `splinter_create`), the converted 64-bit value is stored at the
new offset, `val_off` is re-pointed and `val_len` set to 8.  The `uint8_t`
store of the mask into `type_flag` truncates to `mask % 256`.  Every exit
after the seqlock acquisition leaves the slot epoch `+2` from entry. -/
def splinter_set_named_type (os : Option Store) (key : List Nat) (mask : Nat) :
    Int × Option Store :=
  match os with
  | none => (-1, none)
  | some st =>
    match probeFind st (fnv1a key) key with
    | none => (-1, some st)
    | some p =>
      let slot := st.getSlot p
      if slot.epoch % 2 = 1 then (-1, some st)
      else
        let current_len := slot.val_len
        if mask.testBit 2 ∧ current_len < 8 then
          let new_off := st.header.val_brk
          if st.header.val_sz < new_off + 8 then
            (-1, some { (st.setSlot p { slot with epoch := slot.epoch + 2 }) with
                        header := { st.header with val_brk := new_off + 8 } })
          else
            let converted :=
              convertValue (readBytes st.values slot.val_off current_len)
                current_len
            let slot' := { slot with
              val_off := new_off, val_len := 8,
              type_flag := mask % 256, epoch := slot.epoch + 2 }
            (0, some { (st.setSlot p slot') with
                       values := writeBytes st.values new_off (u64ToBytes converted),
                       header := { st.header with
                                   val_brk := new_off + 8,
                                   epoch := st.header.epoch + 1 } })
        else
          let slot' := { slot with type_flag := mask % 256, epoch := slot.epoch + 2 }
          (0, some { (st.setSlot p slot') with
                     header := { st.header with epoch := st.header.epoch + 1 } })

/-! ## Embeddings, timestamps, watches, purge, read-only accessors -/

/-- `splinter_set_embedding(key, vec)` (the `SPLINTER_EMBEDDINGS` build): copy
the 768-float vector (modelled opaquely) into the slot under the seqlock and
bump the slot and global epochs. -/
def splinter_set_embedding (os : Option Store) (key : List Nat)
    (vec : List Nat) : Int × Option Store :=
  match os with
  | none => (-1, none)
  | some st =>
    match probeFind st (fnv1a key) key with
    | none => (-1, some st)
    | some p =>
      let slot := st.getSlot p
      if slot.epoch % 2 = 1 then (-1, some st)
      else
        let slot' := { slot with embedding := vec, epoch := slot.epoch + 2 }
        (0, some { (st.setSlot p slot') with
                   header := { st.header with epoch := st.header.epoch + 1 } })

/-- `splinter_set_slot_time(key, mode, epoch, offset)`: after a reader-style
(non-locking) odd-epoch check, store `epoch - offset` (`uint64_t` wrap-around
subtraction) into `ctime` or `atime`; an unknown mode returns `-2` with
`errno = ENOTSUP`. -/
def splinter_set_slot_time (os : Option Store) (key : List Nat)
    (mode ep off : Nat) : Int × Option Store :=
  match os with
  | none => (-1, none)
  | some st =>
    match probeFind st (fnv1a key) key with
    | none => (-1, some st)
    | some p =>
      let slot := st.getSlot p
      if slot.epoch % 2 = 1 then (-1, some st)
      else
        let t := (ep % 2 ^ 64 + (2 ^ 64 - off % 2 ^ 64)) % 2 ^ 64
        if mode = SPL_TIME_CTIME then
          (0, some (st.setSlot p { slot with ctime := t }))
        else if mode = SPL_TIME_ATIME then
          (0, some (st.setSlot p { slot with atime := t }))
        else (-2, some st)

/-- `splinter_watch_register(key, group_id)`: validate the group, then OR the
group's bit into the slot's `watcher_mask`. -/
def splinter_watch_register (os : Option Store) (key : List Nat)
    (group_id : Nat) : Int × Option Store :=
  match os with
  | none => (-1, none)
  | some st =>
    if SPLINTER_MAX_GROUPS ≤ group_id then (-2, some st)
    else
      match probeFind st (fnv1a key) key with
      | none => (-1, some st)
      | some p =>
        let slot := st.getSlot p
        (0, some (st.setSlot p
          { slot with watcher_mask := slot.watcher_mask ||| 2 ^ group_id }))

/-- `splinter_watch_unregister(key, group_id)`: AND the slot's `watcher_mask`
with the complement (within 64 bits) of the group's bit. -/
def splinter_watch_unregister (os : Option Store) (key : List Nat)
    (group_id : Nat) : Int × Option Store :=
  match os with
  | none => (-1, none)
  | some st =>
    if SPLINTER_MAX_GROUPS ≤ group_id then (-1, some st)
    else
      match probeFind st (fnv1a key) key with
      | none => (-1, some st)
      | some p =>
        let slot := st.getSlot p
        (0, some (st.setSlot p
          { slot with
            watcher_mask := slot.watcher_mask &&& (2 ^ 64 - 1 - 2 ^ group_id) }))

/-- `splinter_watch_label_register(bloom_mask, group_id)`: for each of the 64
bloom bits set in the mask, store the group id into `bloom_watches[bit]`;
nothing else in the region is touched. -/
def splinter_watch_label_register (os : Option Store) (bloom_mask group_id : Nat) :
    Int × Option Store :=
  match os with
  | none => (-1, none)
  | some st =>
    if SPLINTER_MAX_GROUPS ≤ group_id then (-1, some st)
    else
      (0, some { st with header := { st.header with
        bloom_watches := fun b =>
          if b < 64 ∧ bloom_mask.testBit b then group_id
          else st.header.bloom_watches b } })

/-- `splinter_get_signal_count(group_id)`: 0 for a NULL region or invalid
group, otherwise the group's counter. -/
def splinter_get_signal_count (os : Option Store) (group_id : Nat) : Nat :=
  match os with
  | none => 0
  | some st =>
    if SPLINTER_MAX_GROUPS ≤ group_id then 0
    else st.header.signal_groups group_id

/-- The per-slot body of `splinter_purge`: skip odd-epoch slots, take the
seqlock, zero the whole value region of a free slot or the tail beyond
`val_len` of an occupied one, release (epoch `+2` from entry). -/
def purgeSlot (st : Store) (p : Nat) : Store :=
  let slot := st.getSlot p
  if slot.epoch % 2 = 1 then st
  else
    let len := slot.val_len
    let vals :=
      if slot.hash = 0 then zeroBytes st.values slot.val_off st.header.max_val_sz
      else if len < st.header.max_val_sz then
        zeroBytes st.values (slot.val_off + len) (st.header.max_val_sz - len)
      else st.values
    { (st.setSlot p { slot with epoch := slot.epoch + 2 }) with values := vals }

/-- `splinter_purge()`: sweep every slot in table order. -/
def splinter_purge (os : Option Store) : Option Store :=
  match os with
  | none => none
  | some st => some ((List.range st.header.slots).foldl purgeSlot st)

/-- Outcome of the entry phase of `splinter_poll` (everything before the
wait loop, whose behaviour depends on real time and is not modelled):
`noRegion`/`notFound` both return `-1`, an odd epoch returns `-2` with
`errno = EAGAIN`, and otherwise the call enters the timed wait loop. -/
inductive PollEntry where
  | noRegion
  | notFound
  | againErr
  | wouldWait
  deriving DecidableEq, Inhabited

def splinter_poll_entry (os : Option Store) (key : List Nat) : PollEntry :=
  match os with
  | none => .noRegion
  | some st =>
    match probeFind st (fnv1a key) key with
    | none => .notFound
    | some p =>
      if (st.getSlot p).epoch % 2 = 1 then .againErr else .wouldWait

def PollEntry.retCode : PollEntry → Option Int
  | .noRegion => some (-1)
  | .notFound => some (-1)
  | .againErr => some (-2)
  | .wouldWait => none

/-- `splinter_get_raw_ptr(key, &out_sz, &out_epoch)`: `none` models the NULL
return; on a hit the triple carries the arena offset of the returned pointer
(`VALUES + val_off`), the `val_len` written through `out_sz`, and the epoch
written through `out_epoch`. -/
def splinter_get_raw_ptr (os : Option Store) (key : List Nat) :
    Option (Nat × Nat × Nat) :=
  match os with
  | none => none
  | some st =>
    match probeFind st (fnv1a key) key with
    | none => none
    | some p =>
      some ((st.getSlot p).val_off, (st.getSlot p).val_len, (st.getSlot p).epoch)

/-- `splinter_get_epoch(key)`: the slot's epoch, or 0 when the region is NULL
or the key absent. -/
def splinter_get_epoch (os : Option Store) (key : List Nat) : Nat :=
  match os with
  | none => 0
  | some st =>
    match probeFind st (fnv1a key) key with
    | none => 0
    | some p => (st.getSlot p).epoch

/-- `splinter_list(out_keys, max_keys, &out_count)`: collect (borrowed) keys
of at most `max_keys` slots with nonzero hash and positive `val_len`, in table
order. -/
def splinter_list (os : Option Store) (max_keys : Nat) :
    Int × List (List Nat) :=
  match os with
  | none => (-1, [])
  | some st =>
    (0, ((st.slotTable.filter
      (fun s => s.hash ≠ 0 ∧ 0 < s.val_len)).take max_keys).map (fun s => s.key))

/-- `splinter_set_av(mode)`: set the auto-scrub master bit for mode 1, clear
both the master and hybrid bits for mode 0, reject other modes. -/
def splinter_set_av (os : Option Store) (mode : Nat) : Int × Option Store :=
  match os with
  | none => (-2, none)
  | some st =>
    if mode = 1 then
      (0, some { st with header := { st.header with
        core_flags := st.header.core_flags ||| SPL_SYS_AUTO_SCRUB } })
    else if mode = 0 then
      (0, some { st with header := { st.header with
        core_flags := st.header.core_flags &&& (255 - 3) } })
    else (-1, some st)

/-- `splinter_set_hybrid_av()`: set the master and hybrid bits in one atomic
OR. -/
def splinter_set_hybrid_av (os : Option Store) : Int × Option Store :=
  match os with
  | none => (-2, none)
  | some st =>
    (0, some { st with header := { st.header with
      core_flags := st.header.core_flags ||| (SPL_SYS_AUTO_SCRUB + SPL_SYS_HYBRID_SCRUB) } })

/-! ## Operation traces

Every state-changing public operation of the library, packaged so that
region-lifetime invariants (monotonicity of the global epoch, of slot epochs,
of signal counters) can be stated over arbitrary operation sequences.  The
read-only calls (`splinter_get`, `splinter_list`, `splinter_poll`,
`splinter_get_epoch`, `splinter_get_raw_ptr`, the snapshot calls,
`splinter_get_signal_count`) modify nothing and are omitted. -/

inductive SplinterOp where
  | opSet (key val : List Nat)
  | opUnset (key : List Nat)
  | opIntegerOp (key : List Nat) (op : IntegerOp) (mask : Option Nat)
  | opSetLabel (key : List Nat) (mask : Nat)
  | opSetNamedType (key : List Nat) (mask : Nat)
  | opSetEmbedding (key vec : List Nat)
  | opSetSlotTime (key : List Nat) (mode ep off : Nat)
  | opPurge
  | opWatchRegister (key : List Nat) (g : Nat)
  | opWatchUnregister (key : List Nat) (g : Nat)
  | opWatchLabelRegister (mask g : Nat)
  | opSetAv (mode : Nat)
  | opSetHybridAv

def SplinterOp.isUnset : SplinterOp → Bool
  | .opUnset _ => true
  | _ => false

/-- State transition of one public operation (return code discarded). -/
def stepOp (os : Option Store) (op : SplinterOp) : Option Store :=
  match op with
  | .opSet k v => (splinter_set os k v).2
  | .opUnset k => (splinter_unset os k).2
  | .opIntegerOp k op m => (splinter_integer_op os k op m).2
  | .opSetLabel k m => (splinter_set_label os k m).2
  | .opSetNamedType k m => (splinter_set_named_type os k m).2
  | .opSetEmbedding k vec => (splinter_set_embedding os k vec).2
  | .opSetSlotTime k mode ep off => (splinter_set_slot_time os k mode ep off).2
  | .opPurge => splinter_purge os
  | .opWatchRegister k g => (splinter_watch_register os k g).2
  | .opWatchUnregister k g => (splinter_watch_unregister os k g).2
  | .opWatchLabelRegister m g => (splinter_watch_label_register os m g).2
  | .opSetAv mode => (splinter_set_av os mode).2
  | .opSetHybridAv => (splinter_set_hybrid_av os).2

def runOps (os : Option Store) (ops : List SplinterOp) : Option Store :=
  ops.foldl stepOp os

/-- Observation of the global header epoch (0 for an unmapped region). -/
def headerEpoch (os : Option Store) : Nat :=
  match os with
  | none => 0
  | some st => st.header.epoch

/-- Observation of slot `p`'s seqlock epoch (0 for an unmapped region). -/
def slotEpoch (os : Option Store) (p : Nat) : Nat :=
  match os with
  | none => 0
  | some st => (st.getSlot p).epoch

/-! ## Basic lemmas about the embedding -/

theorem getSlot_setSlot (st : Store) (q : Nat) (s : Slot) (p : Nat) :
    (st.setSlot q s).getSlot p =
      if p = q ∧ q < st.slotTable.length then s else st.getSlot p := by
  unfold Store.setSlot Store.getSlot
  simp only [List.getD_eq_getD_get?]
  by_cases hpq : p = q
  · subst hpq
    by_cases hq : p < st.slotTable.length
    · rw [List.get?_set_eq_of_lt _ hq, if_pos ⟨rfl, hq⟩]
      rfl
    · have hnone : st.slotTable.get? p = none := by
        rw [List.get?_eq_none]
        omega
      rw [List.get?_set_eq, hnone, if_neg (by simp [hq])]
      rfl
  · rw [List.get?_set_ne _ _ (fun h => hpq h.symm), if_neg (by simp [hpq])]

theorem setSlot_header (st : Store) (q : Nat) (s : Slot) :
    (st.setSlot q s).header = st.header := rfl

theorem setSlot_values (st : Store) (q : Nat) (s : Slot) :
    (st.setSlot q s).values = st.values := rfl

theorem setSlot_length (st : Store) (q : Nat) (s : Slot) :
    (st.setSlot q s).slotTable.length = st.slotTable.length := by
  simp [Store.setSlot]

theorem probePositions_mem_lt (slots hash : Nat) (h0 : 0 < slots) :
    ∀ p ∈ probePositions slots hash, p < slots := by
  intro p hp
  unfold probePositions at hp
  obtain ⟨i, _, rfl⟩ := List.mem_map.mp hp
  exact Nat.mod_lt _ h0

theorem probePositions_nodup (slots hash : Nat) :
    (probePositions slots hash).Nodup := by
  unfold probePositions
  rcases Nat.eq_zero_or_pos slots with h0 | hpos
  · subst h0; simp
  · refine (List.nodup_range slots).map_on ?_
    intro i hi j hj hf
    have hi' : i < slots := List.mem_range.mp hi
    have hj' : j < slots := List.mem_range.mp hj
    have hmod : i % slots = j % slots := Nat.ModEq.add_left_cancel' _ hf
    rwa [Nat.mod_eq_of_lt hi', Nat.mod_eq_of_lt hj'] at hmod

theorem map_getD_range (l : List Nat) :
    (List.range l.length).map (fun j => l.getD j 0) = l := by
  induction l with
  | nil => simp
  | cons a t ih =>
    rw [List.length_cons, List.range_succ_eq_map _, List.map_cons, List.map_map]
    have hcomp : ((fun j => (a :: t).getD j 0) ∘ Nat.succ) = fun j => t.getD j 0 := by
      funext j
      simp [Function.comp]
    rw [List.getD_cons_zero, hcomp, ih]

theorem readBytes_writeBytes (f : Nat → Nat) (off : Nat) (bs : List Nat) :
    readBytes (writeBytes f off bs) off bs.length = bs := by
  unfold readBytes writeBytes
  have hcong : ∀ j ∈ List.range bs.length,
      (if off ≤ off + j ∧ off + j < off + bs.length then bs.getD (off + j - off) 0
       else f (off + j)) = bs.getD j 0 := by
    intro j hj
    have hj' : j < bs.length := List.mem_range.mp hj
    rw [if_pos ⟨Nat.le_add_right _ _, by omega⟩]
    congr 1
    omega
  rw [List.map_congr_left hcong, map_getD_range]

theorem bytesToU64_leBytes (n : Nat) : ∀ v : Nat,
    bytesToU64 ((List.range n).map (fun j => v / 256 ^ j % 256)) = v % 256 ^ n := by
  induction n with
  | zero => intro v; simp [bytesToU64, Nat.mod_one]
  | succ n ih =>
    intro v
    rw [List.range_succ_eq_map _, List.map_cons, List.map_map]
    have hcomp : ((fun j => v / 256 ^ j % 256) ∘ Nat.succ)
        = fun j => (v / 256) / 256 ^ j % 256 := by
      funext j
      have hd : v / 256 ^ (j + 1) = v / 256 / 256 ^ j := by
        rw [Nat.div_div_eq_div_mul, pow_succ']
      simp [Function.comp, hd]
    rw [hcomp]
    show v / 256 ^ 0 % 256 % 256 + 256 * bytesToU64
        ((List.range n).map fun j => v / 256 / 256 ^ j % 256) = v % 256 ^ (n + 1)
    rw [ih (v / 256), pow_succ' 256 n, Nat.mod_mul]
    norm_num

theorem u64ToBytes_length (v : Nat) : (u64ToBytes v).length = 8 := by
  simp [u64ToBytes]

theorem bytesToU64_u64ToBytes (v : Nat) : bytesToU64 (u64ToBytes v) = v % 2 ^ 64 := by
  unfold u64ToBytes
  rw [bytesToU64_leBytes 8 v]
  norm_num

theorem cstrncmpEq_refl_of_short (k : List Nat) (hk : k.length ≤ SPLINTER_KEY_MAX - 1) :
    cstrncmpEq (k.take (SPLINTER_KEY_MAX - 1)) k SPLINTER_KEY_MAX = true := by
  rw [List.take_of_length_le hk]
  simp [cstrncmpEq]

/-! ## Lemmas about the pulse routine -/

theorem pulse_signal_foldl (cond : Nat → Bool) (tgt : Nat → Nat) :
    ∀ (l : List Nat) (sg : Nat → Nat) (g : Nat),
    (l.foldl (fun acc b => if cond b then pulseStep (tgt b) acc else acc) sg) g
      = sg g + (l.filter (fun b => cond b && tgt b == g)).length := by
  intro l
  induction l with
  | nil => intro sg g; simp
  | cons b t ih =>
    intro sg g
    rw [List.foldl_cons, ih]
    by_cases hc : cond b = true
    · by_cases ht : tgt b = g
      · rw [List.filter_cons_of_pos (by simp [hc, ht]), if_pos hc]
        have hstep : pulseStep (tgt b) sg g = sg g + 1 := by
          simp [pulseStep, ht]
        rw [hstep, List.length_cons]
        omega
      · have hne : ¬ g = tgt b := fun h => ht h.symm
        rw [List.filter_cons_of_neg (by simp [hc, ht]), if_pos hc]
        have hstep : pulseStep (tgt b) sg g = sg g := by
          simp [pulseStep, hne]
        rw [hstep]
    · rw [List.filter_cons_of_neg (by simp [hc]), if_neg hc]

theorem filter_beq_range_length (n g : Nat) (q : Nat → Bool) :
    ((List.range n).filter (fun b => q b && b == g)).length
      = if g < n ∧ q g then 1 else 0 := by
  induction n with
  | zero => simp
  | succ n ih =>
    rw [List.range_succ, List.filter_append, List.length_append, ih]
    by_cases hg : n = g
    · subst hg
      have h1 : ¬ (n < n ∧ q n = true) := by omega
      by_cases hq : q n = true
      · rw [List.filter_cons_of_pos (by simp [hq])]
        simp [h1, hq]
      · rw [List.filter_cons_of_neg (by simp [hq])]
        simp [h1, hq]
    · rw [List.filter_cons_of_neg (by simp [hg])]
      have : (g < n + 1 ∧ q g = true) ↔ (g < n ∧ q g = true) := by
        constructor
        · rintro ⟨h1, h2⟩; exact ⟨by omega, h2⟩
        · rintro ⟨h1, h2⟩; exact ⟨by omega, h2⟩
      simp only [List.filter_nil, List.length_nil]
      rw [if_congr this rfl rfl]
      omega

/-- The number of bloom-routed pulses group `g` receives for a slot with bloom
mask `bloom`: one per bloom bit `b` whose `bloom_watches[b]` entry is a valid
group id equal to `g`. -/
def bloomPulseCount (hdr : Header) (bloom : Nat) (g : Nat) : Nat :=
  ((List.range 64).filter (fun b =>
    (bloom.testBit b && decide (hdr.bloom_watches b < SPLINTER_MAX_GROUPS))
      && hdr.bloom_watches b == g)).length

theorem pulse_signal_groups (hdr : Header) (slot : Slot) (g : Nat) :
    (splinter_pulse_watchers hdr slot).signal_groups g
      = hdr.signal_groups g
        + (if g < 64 ∧ slot.watcher_mask.testBit g then 1 else 0)
        + bloomPulseCount hdr slot.bloom g := by
  unfold splinter_pulse_watchers bloomPulseCount
  simp only
  rw [pulse_signal_foldl (fun b =>
        slot.bloom.testBit b && decide (hdr.bloom_watches b < SPLINTER_MAX_GROUPS))
      (fun b => hdr.bloom_watches b)]
  rw [pulse_signal_foldl (fun i => slot.watcher_mask.testBit i) (fun i => i)]
  rw [filter_beq_range_length]

theorem pulse_header_frame (hdr : Header) (slot : Slot) :
    (splinter_pulse_watchers hdr slot).epoch = hdr.epoch ∧
    (splinter_pulse_watchers hdr slot).slots = hdr.slots ∧
    (splinter_pulse_watchers hdr slot).max_val_sz = hdr.max_val_sz ∧
    (splinter_pulse_watchers hdr slot).bloom_watches = hdr.bloom_watches := by
  exact ⟨rfl, rfl, rfl, rfl⟩

/-! ## Lemmas about `splinter_set`'s probe loop -/

/-- The slot record written by a committed `splinter_set` at position `p`. -/
def committedSlot (st : Store) (p hash : Nat) (key val : List Nat) : Slot :=
  { st.getSlot p with
    val_len := val.length,
    key := key.take (SPLINTER_KEY_MAX - 1),
    hash := hash,
    epoch := (st.getSlot p).epoch + 2 }

theorem setCommit_getSlot (st : Store) (p hash : Nat) (key val : List Nat) (q : Nat) :
    (setCommit st p hash key val).getSlot q
      = (st.setSlot p (committedSlot st p hash key val)).getSlot q := rfl

theorem setCommit_values (st : Store) (p hash : Nat) (key val : List Nat) :
    (setCommit st p hash key val).values
      = writeBytes (scrubDst st (st.getSlot p).val_off val.length)
          (st.getSlot p).val_off val := rfl

theorem setCommit_header_epoch (st : Store) (p hash : Nat) (key val : List Nat) :
    (setCommit st p hash key val).header.epoch = st.header.epoch + 1 := rfl

theorem setCommit_header_slots (st : Store) (p hash : Nat) (key val : List Nat) :
    (setCommit st p hash key val).header.slots = st.header.slots := rfl

theorem setCommit_signal_groups (st : Store) (p hash : Nat) (key val : List Nat)
    (g : Nat) :
    (setCommit st p hash key val).header.signal_groups g
      = st.header.signal_groups g
        + (if g < 64 ∧ (st.getSlot p).watcher_mask.testBit g then 1 else 0)
        + bloomPulseCount st.header (st.getSlot p).bloom g := by
  have h : (setCommit st p hash key val).header.signal_groups
      = (splinter_pulse_watchers st.header (committedSlot st p hash key val)).signal_groups := rfl
  rw [h, pulse_signal_groups]
  rfl

/-- A successful run of `splinter_set`'s probe loop commits at some probed
position whose slot was acceptable, quiescent and within arena bounds. -/
theorem setLoop_success (st : Store) (hash : Nat) (key val : List Nat) :
    ∀ ps : List Nat, ∀ st', setLoop st hash key val ps = (0, st') →
      ∃ p ∈ ps,
        ((st.getSlot p).hash = 0 ∨ ((st.getSlot p).hash = hash ∧
           cstrncmpEq (st.getSlot p).key key SPLINTER_KEY_MAX = true)) ∧
        (st.getSlot p).epoch % 2 = 0 ∧
        (st.getSlot p).val_off + val.length ≤ st.header.slots * st.header.max_val_sz ∧
        st' = setCommit st p hash key val := by
  intro ps
  induction ps with
  | nil =>
    intro st' h
    simp [setLoop] at h
  | cons p rest ih =>
    intro st' h
    simp only [setLoop] at h
    by_cases hacc : (st.getSlot p).hash = 0 ∨ ((st.getSlot p).hash = hash ∧
        cstrncmpEq (st.getSlot p).key key SPLINTER_KEY_MAX = true)
    · rw [if_pos hacc] at h
      by_cases hodd : (st.getSlot p).epoch % 2 = 1
      · rw [if_pos hodd] at h
        obtain ⟨q, hq, h1, h2, h3, h4⟩ := ih st' h
        exact ⟨q, List.mem_cons_of_mem _ hq, h1, h2, h3, h4⟩
      · rw [if_neg hodd] at h
        by_cases hbound : st.header.slots * st.header.max_val_sz ≤ (st.getSlot p).val_off ∨
            st.header.slots * st.header.max_val_sz < (st.getSlot p).val_off + val.length
        · rw [if_pos hbound] at h
          simp at h
        · rw [if_neg hbound] at h
          obtain ⟨h1, h2⟩ := Prod.mk.injEq _ _ _ _ ▸ h
          refine ⟨p, List.mem_cons_self _ _, hacc, by omega, by omega, h2.symm⟩
    · rw [if_neg hacc] at h
      obtain ⟨q, hq, h1, h2, h3, h4⟩ := ih st' h
      exact ⟨q, List.mem_cons_of_mem _ hq, h1, h2, h3, h4⟩

/-- The probe loop never touches a slot outside the probed positions. -/
theorem setLoop_getSlot_frame (st : Store) (hash : Nat) (key val : List Nat) :
    ∀ ps : List Nat, ∀ q, q ∉ ps →
      (setLoop st hash key val ps).2.getSlot q = st.getSlot q := by
  intro ps
  induction ps with
  | nil => intro q _; rfl
  | cons p rest ih =>
    intro q hq
    have hqp : q ≠ p := fun h => hq (h ▸ List.mem_cons_self _ _)
    have hqrest : q ∉ rest := fun h => hq (List.mem_cons_of_mem _ h)
    simp only [setLoop]
    by_cases hacc : (st.getSlot p).hash = 0 ∨ ((st.getSlot p).hash = hash ∧
        cstrncmpEq (st.getSlot p).key key SPLINTER_KEY_MAX = true)
    · rw [if_pos hacc]
      by_cases hodd : (st.getSlot p).epoch % 2 = 1
      · rw [if_pos hodd]; exact ih q hqrest
      · rw [if_neg hodd]
        by_cases hbound : st.header.slots * st.header.max_val_sz ≤ (st.getSlot p).val_off ∨
            st.header.slots * st.header.max_val_sz < (st.getSlot p).val_off + val.length
        · rw [if_pos hbound]
          show (st.setSlot p _).getSlot q = st.getSlot q
          rw [getSlot_setSlot, if_neg (by simp [hqp])]
        · rw [if_neg hbound]
          show (setCommit st p hash key val).getSlot q = st.getSlot q
          rw [setCommit_getSlot, getSlot_setSlot, if_neg (by simp [hqp])]
    · rw [if_neg hacc]; exact ih q hqrest

/-- The probe loop never shrinks any slot's epoch. -/
theorem setLoop_slot_epoch_mono (st : Store) (hash : Nat) (key val : List Nat) :
    ∀ ps : List Nat, ∀ q,
      (st.getSlot q).epoch ≤ ((setLoop st hash key val ps).2.getSlot q).epoch := by
  intro ps
  induction ps with
  | nil => intro q; exact Nat.le_refl _
  | cons p rest ih =>
    intro q
    simp only [setLoop]
    by_cases hacc : (st.getSlot p).hash = 0 ∨ ((st.getSlot p).hash = hash ∧
        cstrncmpEq (st.getSlot p).key key SPLINTER_KEY_MAX = true)
    · rw [if_pos hacc]
      by_cases hodd : (st.getSlot p).epoch % 2 = 1
      · rw [if_pos hodd]; exact ih q
      · rw [if_neg hodd]
        by_cases hbound : st.header.slots * st.header.max_val_sz ≤ (st.getSlot p).val_off ∨
            st.header.slots * st.header.max_val_sz < (st.getSlot p).val_off + val.length
        · rw [if_pos hbound]
          show (st.getSlot q).epoch ≤ ((st.setSlot p _).getSlot q).epoch
          rw [getSlot_setSlot]
          by_cases hc : q = p ∧ p < st.slotTable.length
          · rw [if_pos hc]
            obtain ⟨rfl, _⟩ := hc
            simp
          · rw [if_neg hc]
        · rw [if_neg hbound]
          show (st.getSlot q).epoch ≤ ((setCommit st p hash key val).getSlot q).epoch
          rw [setCommit_getSlot, getSlot_setSlot]
          by_cases hc : q = p ∧ p < st.slotTable.length
          · rw [if_pos hc]
            obtain ⟨rfl, _⟩ := hc
            simp [committedSlot]
          · rw [if_neg hc]
    · rw [if_neg hacc]; exact ih q

/-- The probe loop leaves the region geometry unchanged and never decreases
the global epoch; a successful run increments the global epoch by exactly 1. -/
theorem setLoop_header (st : Store) (hash : Nat) (key val : List Nat) :
    ∀ ps : List Nat,
      (setLoop st hash key val ps).2.header.slots = st.header.slots ∧
      (setLoop st hash key val ps).2.header.max_val_sz = st.header.max_val_sz ∧
      st.header.epoch ≤ (setLoop st hash key val ps).2.header.epoch := by
  intro ps
  induction ps with
  | nil => exact ⟨rfl, rfl, Nat.le_refl _⟩
  | cons p rest ih =>
    simp only [setLoop]
    by_cases hacc : (st.getSlot p).hash = 0 ∨ ((st.getSlot p).hash = hash ∧
        cstrncmpEq (st.getSlot p).key key SPLINTER_KEY_MAX = true)
    · rw [if_pos hacc]
      by_cases hodd : (st.getSlot p).epoch % 2 = 1
      · rw [if_pos hodd]; exact ih
      · rw [if_neg hodd]
        by_cases hbound : st.header.slots * st.header.max_val_sz ≤ (st.getSlot p).val_off ∨
            st.header.slots * st.header.max_val_sz < (st.getSlot p).val_off + val.length
        · rw [if_pos hbound]
          exact ⟨rfl, rfl, Nat.le_refl _⟩
        · rw [if_neg hbound]
          exact ⟨rfl, rfl, Nat.le_succ _⟩
    · rw [if_neg hacc]; exact ih

/-- Core of the set/get round trip: after a committed `splinter_set` along a
duplicate-free, in-bounds probe list, the first position a reader's probe
matches is either mid-write (odd epoch, the reader retries) or holds exactly
the written value. -/
theorem setLoop_roundtrip (st : Store) (hash : Nat) (key val : List Nat)
    (hkey : key.length ≤ SPLINTER_KEY_MAX - 1) :
    ∀ ps : List Nat, ps.Nodup → (∀ q ∈ ps, q < st.slotTable.length) →
      ∀ st', setLoop st hash key val ps = (0, st') →
      ∃ q, ps.find? (slotMatches st' hash key) = some q ∧
        ((st'.getSlot q).epoch % 2 = 1 ∨
         ((st'.getSlot q).epoch % 2 = 0 ∧ (st'.getSlot q).val_len = val.length ∧
          readBytes st'.values (st'.getSlot q).val_off val.length = val)) := by
  intro ps
  induction ps with
  | nil =>
    intro _ _ st' h
    simp [setLoop] at h
  | cons p rest ih =>
    intro hnd hbounds st' h
    have hplen : p < st.slotTable.length := hbounds p (List.mem_cons_self _ _)
    have hpnotin : p ∉ rest := (List.nodup_cons.mp hnd).1
    have hndrest : rest.Nodup := (List.nodup_cons.mp hnd).2
    have hbrest : ∀ q ∈ rest, q < st.slotTable.length :=
      fun q hq => hbounds q (List.mem_cons_of_mem _ hq)
    simp only [setLoop] at h
    by_cases hacc : (st.getSlot p).hash = 0 ∨ ((st.getSlot p).hash = hash ∧
        cstrncmpEq (st.getSlot p).key key SPLINTER_KEY_MAX = true)
    · rw [if_pos hacc] at h
      by_cases hodd : (st.getSlot p).epoch % 2 = 1
      · -- the writer skipped this acceptable-but-busy slot and kept probing
        rw [if_pos hodd] at h
        have hfr : st'.getSlot p = st.getSlot p := by
          have hframe := setLoop_getSlot_frame st hash key val rest p hpnotin
          rw [h] at hframe
          exact hframe
        by_cases hm : slotMatches st' hash key p = true
        · refine ⟨p, List.find?_cons_of_pos _ hm, Or.inl ?_⟩
          rw [hfr]
          exact hodd
        · obtain ⟨q, hfind, hout⟩ := ih hndrest hbrest st' h
          refine ⟨q, ?_, hout⟩
          rw [List.find?_cons_of_neg _ (by simp [hm]), hfind]
      · rw [if_neg hodd] at h
        by_cases hbound : st.header.slots * st.header.max_val_sz ≤ (st.getSlot p).val_off ∨
            st.header.slots * st.header.max_val_sz < (st.getSlot p).val_off + val.length
        · rw [if_pos hbound] at h
          simp at h
        · rw [if_neg hbound] at h
          have hst' : st' = setCommit st p hash key val :=
            ((Prod.mk.injEq _ _ _ _ ▸ h).2).symm
          have hslot : st'.getSlot p = committedSlot st p hash key val := by
            rw [hst', setCommit_getSlot, getSlot_setSlot, if_pos ⟨rfl, hplen⟩]
          have hmatch : slotMatches st' hash key p = true := by
            unfold slotMatches
            rw [hslot]
            simp [committedSlot, cstrncmpEq_refl_of_short key hkey]
          refine ⟨p, List.find?_cons_of_pos _ hmatch, Or.inr ⟨?_, ?_, ?_⟩⟩
          · rw [hslot]
            show ((st.getSlot p).epoch + 2) % 2 = 0
            omega
          · rw [hslot]
            rfl
          · rw [hslot, hst', setCommit_values]
            show readBytes _ (st.getSlot p).val_off val.length = val
            have hrw := readBytes_writeBytes
              (scrubDst st (st.getSlot p).val_off val.length)
              (st.getSlot p).val_off val
            exact hrw
    · -- rejected position: occupied by a different hash/key, unchanged by the
      -- loop, hence also rejected by the reader's probe
      rw [if_neg hacc] at h
      push_neg at hacc
      have hfr : st'.getSlot p = st.getSlot p := by
        have hframe := setLoop_getSlot_frame st hash key val rest p hpnotin
        rw [h] at hframe
        exact hframe
      have hm : slotMatches st' hash key p = false := by
        unfold slotMatches
        rw [hfr]
        cases hb : ((st.getSlot p).hash == hash) with
        | false => simp [hb]
        | true =>
          have hh : (st.getSlot p).hash = hash := by simpa using hb
          cases hcc : cstrncmpEq (st.getSlot p).key key SPLINTER_KEY_MAX with
          | false => simp [hb, hcc]
          | true => exact absurd hcc (hacc.2 hh)
      obtain ⟨q, hfind, hout⟩ := ih hndrest hbrest st' h
      refine ⟨q, ?_, hout⟩
      rw [List.find?_cons_of_neg _ (by simp [hm]), hfind]

/-- Helper for instantiating `splinter_set` results: a pair equation split
into its components. -/
theorem setLoop_pair_eq (st : Store) (hash : Nat) (key val : List Nat)
    (ps : List Nat) (st' : Store)
    (h1 : (setLoop st hash key val ps).1 = 0)
    (h2 : (setLoop st hash key val ps).2 = st') :
    setLoop st hash key val ps = (0, st') := by
  have := Prod.mk.eta (p := setLoop st hash key val ps)
  rw [← this, h1, h2]

/-- C1 (amended): for a key that fits the in-slot key buffer (at most 63
bytes) and a value with `0 < |v| ≤ max_val_sz`, after a successful
`splinter_set(k, v, |v|)` every `splinter_get(k, buf, buf_sz, &n)` with
`buf_sz ≥ |v|` either reports the retry condition or succeeds with
`n = |v|` and the first `|v|` bytes of `buf` holding exactly `v`.
(`splinter_get` mutates nothing, so this covers any number of subsequent
`get` calls.) -/
theorem c1_set_get_roundtrip (st st' : Store) (key val buf : List Nat)
    (buf_sz : Nat)
    (hlen : st.slotTable.length = st.header.slots)
    (hkey : key.length ≤ SPLINTER_KEY_MAX - 1)
    (hbuf : val.length ≤ buf_sz)
    (hset : splinter_set (some st) key val = (0, some st')) :
    (splinter_get (some st') key (some buf) buf_sz).1 = GetResult.againErr ∨
    splinter_get (some st') key (some buf) buf_sz
      = (GetResult.ok, some val.length, some (val ++ buf.drop val.length)) := by
  simp only [splinter_set] at hset
  by_cases hv : val.length = 0 ∨ st.header.max_val_sz < val.length
  · rw [if_pos hv] at hset
    simp at hset
  · rw [if_neg hv] at hset
    have h1 : (setLoop st (fnv1a key) key val
        (probePositions st.header.slots (fnv1a key))).1 = 0 := by
      have := congrArg Prod.fst hset
      simpa using this
    have h2 : (setLoop st (fnv1a key) key val
        (probePositions st.header.slots (fnv1a key))).2 = st' := by
      have := congrArg Prod.snd hset
      simpa using this
    have hsl := setLoop_pair_eq _ _ _ _ _ _ h1 h2
    rcases Nat.eq_zero_or_pos st.header.slots with h0 | hpos
    · rw [h0] at hsl
      simp [probePositions, setLoop] at hsl
    · have hbounds : ∀ q ∈ probePositions st.header.slots (fnv1a key),
          q < st.slotTable.length := by
        intro q hq
        rw [hlen]
        exact probePositions_mem_lt _ _ hpos q hq
      obtain ⟨q, hfind, hout⟩ := setLoop_roundtrip st (fnv1a key) key val hkey
        (probePositions st.header.slots (fnv1a key))
        (probePositions_nodup _ _) hbounds st' hsl
      have hslots : st'.header.slots = st.header.slots := by
        have := (setLoop_header st (fnv1a key) key val
          (probePositions st.header.slots (fnv1a key))).1
        rw [h2] at this
        exact this
      have hpf : probeFind st' (fnv1a key) key = some q := by
        unfold probeFind
        rw [hslots]
        exact hfind
      rcases hout with hodd | ⟨heven, hvl, hbytes⟩
      · left
        simp only [splinter_get, hpf]
        rw [if_pos hodd]
      · right
        simp only [splinter_get, hpf]
        rw [if_neg (by omega)]
        rw [if_neg (by omega : ¬ buf_sz < (st'.getSlot q).val_len)]
        rw [if_pos (And.intro trivial heven), hvl, hbytes]

/-! ## Per-operation monotonicity lemmas -/

theorem setSlot_epoch_mono (st : Store) (q : Nat) (s : Slot)
    (hs : (st.getSlot q).epoch ≤ s.epoch) (p : Nat) :
    (st.getSlot p).epoch ≤ ((st.setSlot q s).getSlot p).epoch := by
  rw [getSlot_setSlot]
  by_cases hc : p = q ∧ q < st.slotTable.length
  · rw [if_pos hc]
    obtain ⟨rfl, _⟩ := hc
    exact hs
  · rw [if_neg hc]

theorem purgeSlot_epoch_mono (st : Store) (q p : Nat) :
    (st.getSlot p).epoch ≤ ((purgeSlot st q).getSlot p).epoch := by
  unfold purgeSlot
  by_cases hodd : (st.getSlot q).epoch % 2 = 1
  · rw [if_pos hodd]
  · rw [if_neg hodd]
    exact setSlot_epoch_mono st q _ (by simp) p

theorem purgeSlot_header (st : Store) (q : Nat) :
    (purgeSlot st q).header = st.header := by
  unfold purgeSlot
  by_cases hodd : (st.getSlot q).epoch % 2 = 1
  · rw [if_pos hodd]
  · rw [if_neg hodd]
    rfl

theorem foldl_purgeSlot_epoch_mono (l : List Nat) : ∀ (st : Store) (p : Nat),
    (st.getSlot p).epoch ≤ ((l.foldl purgeSlot st).getSlot p).epoch := by
  induction l with
  | nil => intro st p; exact Nat.le_refl _
  | cons q t ih =>
    intro st p
    exact Nat.le_trans (purgeSlot_epoch_mono st q p) (ih (purgeSlot st q) p)

theorem foldl_purgeSlot_header (l : List Nat) : ∀ st : Store,
    (l.foldl purgeSlot st).header = st.header := by
  induction l with
  | nil => intro st; rfl
  | cons q t ih =>
    intro st
    rw [List.foldl_cons, ih (purgeSlot st q), purgeSlot_header]

/-- No public operation except `splinter_unset` ever decreases a slot's
seqlock epoch (sequential semantics). -/
theorem stepOp_slot_epoch_mono (os : Option Store) (op : SplinterOp)
    (hop : op.isUnset = false) (p : Nat) :
    slotEpoch os p ≤ slotEpoch (stepOp os op) p := by
  cases os with
  | none => exact Nat.zero_le _
  | some st =>
    cases op with
    | opUnset k => simp [SplinterOp.isUnset] at hop
    | opSet k v =>
      simp only [stepOp, slotEpoch, splinter_set]
      by_cases hv : v.length = 0 ∨ st.header.max_val_sz < v.length
      · rw [if_pos hv]
      · rw [if_neg hv]
        exact setLoop_slot_epoch_mono st _ k v _ p
    | opIntegerOp k o m =>
      simp only [stepOp, slotEpoch, splinter_integer_op]
      cases hpf : probeFind st (fnv1a k) k with
      | none => exact Nat.le_refl _
      | some q =>
        simp only []
        by_cases ht : ¬ (st.getSlot q).type_flag.testBit 2
        · rw [if_pos ht]
        · rw [if_neg ht]
          by_cases hodd : (st.getSlot q).epoch % 2 = 1
          · rw [if_pos hodd]
          · rw [if_neg hodd]
            exact setSlot_epoch_mono st q _ (by simp) p
    | opSetLabel k m =>
      simp only [stepOp, slotEpoch, splinter_set_label]
      cases hpf : probeFind st (fnv1a k) k with
      | none => exact Nat.le_refl _
      | some q =>
        simp only []
        exact setSlot_epoch_mono st q _ (by simp) p
    | opSetNamedType k m =>
      simp only [stepOp, slotEpoch, splinter_set_named_type]
      cases hpf : probeFind st (fnv1a k) k with
      | none => exact Nat.le_refl _
      | some q =>
        simp only []
        by_cases hodd : (st.getSlot q).epoch % 2 = 1
        · rw [if_pos hodd]
        · rw [if_neg hodd]
          by_cases hbig : m.testBit 2 ∧ (st.getSlot q).val_len < 8
          · rw [if_pos hbig]
            by_cases hmem : st.header.val_sz < st.header.val_brk + 8
            · rw [if_pos hmem]
              exact setSlot_epoch_mono st q _ (by simp) p
            · rw [if_neg hmem]
              exact setSlot_epoch_mono st q _ (by simp) p
          · rw [if_neg hbig]
            exact setSlot_epoch_mono st q _ (by simp) p
    | opSetEmbedding k vec =>
      simp only [stepOp, slotEpoch, splinter_set_embedding]
      cases hpf : probeFind st (fnv1a k) k with
      | none => exact Nat.le_refl _
      | some q =>
        simp only []
        by_cases hodd : (st.getSlot q).epoch % 2 = 1
        · rw [if_pos hodd]
        · rw [if_neg hodd]
          exact setSlot_epoch_mono st q _ (by simp) p
    | opSetSlotTime k mode ep off =>
      simp only [stepOp, slotEpoch, splinter_set_slot_time]
      cases hpf : probeFind st (fnv1a k) k with
      | none => exact Nat.le_refl _
      | some q =>
        simp only []
        by_cases hodd : (st.getSlot q).epoch % 2 = 1
        · rw [if_pos hodd]
        · rw [if_neg hodd]
          by_cases hm : mode = SPL_TIME_CTIME
          · rw [if_pos hm]
            exact setSlot_epoch_mono st q _ (by simp) p
          · rw [if_neg hm]
            by_cases hm2 : mode = SPL_TIME_ATIME
            · rw [if_pos hm2]
              exact setSlot_epoch_mono st q _ (by simp) p
            · rw [if_neg hm2]
    | opPurge =>
      simp only [stepOp, slotEpoch, splinter_purge]
      exact foldl_purgeSlot_epoch_mono _ st p
    | opWatchRegister k g =>
      simp only [stepOp, slotEpoch, splinter_watch_register]
      by_cases hg : SPLINTER_MAX_GROUPS ≤ g
      · rw [if_pos hg]
      · rw [if_neg hg]
        cases hpf : probeFind st (fnv1a k) k with
        | none => exact Nat.le_refl _
        | some q =>
          simp only []
          exact setSlot_epoch_mono st q _ (by simp) p
    | opWatchUnregister k g =>
      simp only [stepOp, slotEpoch, splinter_watch_unregister]
      by_cases hg : SPLINTER_MAX_GROUPS ≤ g
      · rw [if_pos hg]
      · rw [if_neg hg]
        cases hpf : probeFind st (fnv1a k) k with
        | none => exact Nat.le_refl _
        | some q =>
          simp only []
          exact setSlot_epoch_mono st q _ (by simp) p
    | opWatchLabelRegister m g =>
      simp only [stepOp, slotEpoch, splinter_watch_label_register]
      by_cases hg : SPLINTER_MAX_GROUPS ≤ g
      · rw [if_pos hg]
      · rw [if_neg hg]
        exact Nat.le_refl _
    | opSetAv mode =>
      simp only [stepOp, slotEpoch, splinter_set_av]
      by_cases h1 : mode = 1
      · rw [if_pos h1]
        exact Nat.le_refl _
      · rw [if_neg h1]
        by_cases h0 : mode = 0
        · rw [if_pos h0]
          exact Nat.le_refl _
        · rw [if_neg h0]
    | opSetHybridAv =>
      simp only [stepOp, slotEpoch, splinter_set_hybrid_av]
      exact Nat.le_refl _

/-- No public operation ever decreases the global header epoch. -/
theorem stepOp_header_epoch_mono (os : Option Store) (op : SplinterOp) :
    headerEpoch os ≤ headerEpoch (stepOp os op) := by
  cases os with
  | none => exact Nat.zero_le _
  | some st =>
    cases op with
    | opUnset k =>
      simp only [stepOp, headerEpoch, splinter_unset]
      cases hpf : probeFind st (fnv1a k) k with
      | none => exact Nat.le_refl _
      | some q =>
        simp only []
        by_cases hodd : (st.getSlot q).epoch % 2 = 1
        · rw [if_pos hodd]
        · rw [if_neg hodd]
          exact Nat.le_refl _
    | opSet k v =>
      simp only [stepOp, headerEpoch, splinter_set]
      by_cases hv : v.length = 0 ∨ st.header.max_val_sz < v.length
      · rw [if_pos hv]
      · rw [if_neg hv]
        exact (setLoop_header st _ k v _).2.2
    | opIntegerOp k o m =>
      simp only [stepOp, headerEpoch, splinter_integer_op]
      cases hpf : probeFind st (fnv1a k) k with
      | none => exact Nat.le_refl _
      | some q =>
        simp only []
        by_cases ht : ¬ (st.getSlot q).type_flag.testBit 2
        · rw [if_pos ht]
        · rw [if_neg ht]
          by_cases hodd : (st.getSlot q).epoch % 2 = 1
          · rw [if_pos hodd]
          · rw [if_neg hodd]
            exact Nat.le_succ _
    | opSetLabel k m =>
      simp only [stepOp, headerEpoch, splinter_set_label]
      cases hpf : probeFind st (fnv1a k) k with
      | none => exact Nat.le_refl _
      | some q =>
        simp only []
        exact Nat.le_succ _
    | opSetNamedType k m =>
      simp only [stepOp, headerEpoch, splinter_set_named_type]
      cases hpf : probeFind st (fnv1a k) k with
      | none => exact Nat.le_refl _
      | some q =>
        simp only []
        by_cases hodd : (st.getSlot q).epoch % 2 = 1
        · rw [if_pos hodd]
        · rw [if_neg hodd]
          by_cases hbig : m.testBit 2 ∧ (st.getSlot q).val_len < 8
          · rw [if_pos hbig]
            by_cases hmem : st.header.val_sz < st.header.val_brk + 8
            · rw [if_pos hmem]
            · rw [if_neg hmem]
              exact Nat.le_succ _
          · rw [if_neg hbig]
            exact Nat.le_succ _
    | opSetEmbedding k vec =>
      simp only [stepOp, headerEpoch, splinter_set_embedding]
      cases hpf : probeFind st (fnv1a k) k with
      | none => exact Nat.le_refl _
      | some q =>
        simp only []
        by_cases hodd : (st.getSlot q).epoch % 2 = 1
        · rw [if_pos hodd]
        · rw [if_neg hodd]
          exact Nat.le_succ _
    | opSetSlotTime k mode ep off =>
      simp only [stepOp, headerEpoch, splinter_set_slot_time]
      cases hpf : probeFind st (fnv1a k) k with
      | none => exact Nat.le_refl _
      | some q =>
        simp only []
        by_cases hodd : (st.getSlot q).epoch % 2 = 1
        · rw [if_pos hodd]
        · rw [if_neg hodd]
          by_cases hm : mode = SPL_TIME_CTIME
          · rw [if_pos hm]
            exact Nat.le_refl _
          · rw [if_neg hm]
            by_cases hm2 : mode = SPL_TIME_ATIME
            · rw [if_pos hm2]
              exact Nat.le_refl _
            · rw [if_neg hm2]
    | opPurge =>
      simp only [stepOp, headerEpoch, splinter_purge]
      rw [foldl_purgeSlot_header]
    | opWatchRegister k g =>
      simp only [stepOp, headerEpoch, splinter_watch_register]
      by_cases hg : SPLINTER_MAX_GROUPS ≤ g
      · rw [if_pos hg]
      · rw [if_neg hg]
        cases hpf : probeFind st (fnv1a k) k with
        | none => exact Nat.le_refl _
        | some q => exact Nat.le_refl _
    | opWatchUnregister k g =>
      simp only [stepOp, headerEpoch, splinter_watch_unregister]
      by_cases hg : SPLINTER_MAX_GROUPS ≤ g
      · rw [if_pos hg]
      · rw [if_neg hg]
        cases hpf : probeFind st (fnv1a k) k with
        | none => exact Nat.le_refl _
        | some q => exact Nat.le_refl _
    | opWatchLabelRegister m g =>
      simp only [stepOp, headerEpoch, splinter_watch_label_register]
      by_cases hg : SPLINTER_MAX_GROUPS ≤ g
      · rw [if_pos hg]
      · rw [if_neg hg]
    | opSetAv mode =>
      simp only [stepOp, headerEpoch, splinter_set_av]
      by_cases h1 : mode = 1
      · rw [if_pos h1]
      · rw [if_neg h1]
        by_cases h0 : mode = 0
        · rw [if_pos h0]
        · rw [if_neg h0]
    | opSetHybridAv =>
      simp only [stepOp, headerEpoch, splinter_set_hybrid_av]
      exact Nat.le_refl _

/-- Region-lifetime monotonicity of the global epoch along any operation
sequence. -/
theorem runOps_header_epoch_mono (ops : List SplinterOp) : ∀ os : Option Store,
    headerEpoch os ≤ headerEpoch (runOps os ops) := by
  induction ops with
  | nil => intro os; exact Nat.le_refl _
  | cons op t ih =>
    intro os
    exact Nat.le_trans (stepOp_header_epoch_mono os op) (ih (stepOp os op))

/-! ## Well-formedness: the slot table always has `header.slots` entries

The theorems about probe positions assume the slot table length matches the
header's slot count.  This holds for every store reachable from
`splinter_create`: creation establishes it and no operation resizes the table
or rewrites `header.slots`. -/

/-- Basic geometry invariant of a mapped region. -/
def wfStore (st : Store) : Prop := st.slotTable.length = st.header.slots

theorem createStore_wf (slots max_value_sz : Nat) :
    wfStore (createStore slots max_value_sz) := by
  simp [wfStore, createStore]

theorem setLoop_length (st : Store) (hash : Nat) (key val : List Nat) :
    ∀ ps : List Nat,
      (setLoop st hash key val ps).2.slotTable.length = st.slotTable.length := by
  intro ps
  induction ps with
  | nil => rfl
  | cons p rest ih =>
    simp only [setLoop]
    by_cases hacc : (st.getSlot p).hash = 0 ∨ ((st.getSlot p).hash = hash ∧
        cstrncmpEq (st.getSlot p).key key SPLINTER_KEY_MAX = true)
    · rw [if_pos hacc]
      by_cases hodd : (st.getSlot p).epoch % 2 = 1
      · rw [if_pos hodd]; exact ih
      · rw [if_neg hodd]
        by_cases hbound : st.header.slots * st.header.max_val_sz ≤ (st.getSlot p).val_off ∨
            st.header.slots * st.header.max_val_sz < (st.getSlot p).val_off + val.length
        · rw [if_pos hbound]
          exact setSlot_length st p _
        · rw [if_neg hbound]
          exact setSlot_length st p _
    · rw [if_neg hacc]; exact ih

theorem purgeSlot_length (st : Store) (q : Nat) :
    (purgeSlot st q).slotTable.length = st.slotTable.length := by
  unfold purgeSlot
  by_cases hodd : (st.getSlot q).epoch % 2 = 1
  · rw [if_pos hodd]
  · rw [if_neg hodd]
    exact setSlot_length st q _

theorem foldl_purgeSlot_length (l : List Nat) : ∀ st : Store,
    (l.foldl purgeSlot st).slotTable.length = st.slotTable.length := by
  induction l with
  | nil => intro st; rfl
  | cons q t ih =>
    intro st
    rw [List.foldl_cons, ih (purgeSlot st q), purgeSlot_length]

/-- Every operation maps a mapped region to a mapped region, preserving the
slot-table length and the header's slot count. -/
theorem stepOp_geometry (st : Store) (op : SplinterOp) :
    ∃ st', stepOp (some st) op = some st' ∧
      st'.slotTable.length = st.slotTable.length ∧
      st'.header.slots = st.header.slots := by
  cases op with
  | opSet k v =>
    simp only [stepOp, splinter_set]
    by_cases hv : v.length = 0 ∨ st.header.max_val_sz < v.length
    · rw [if_pos hv]
      exact ⟨st, rfl, rfl, rfl⟩
    · rw [if_neg hv]
      exact ⟨_, rfl, setLoop_length st _ k v _, (setLoop_header st _ k v _).1⟩
  | opUnset k =>
    simp only [stepOp, splinter_unset]
    cases hpf : probeFind st (fnv1a k) k with
    | none => exact ⟨st, rfl, rfl, rfl⟩
    | some q =>
      simp only []
      by_cases hodd : (st.getSlot q).epoch % 2 = 1
      · rw [if_pos hodd]
        exact ⟨st, rfl, rfl, rfl⟩
      · rw [if_neg hodd]
        exact ⟨_, rfl, setSlot_length st q _, rfl⟩
  | opIntegerOp k o m =>
    simp only [stepOp, splinter_integer_op]
    cases hpf : probeFind st (fnv1a k) k with
    | none => exact ⟨st, rfl, rfl, rfl⟩
    | some q =>
      simp only []
      by_cases ht : ¬ (st.getSlot q).type_flag.testBit 2
      · rw [if_pos ht]
        exact ⟨st, rfl, rfl, rfl⟩
      · rw [if_neg ht]
        by_cases hodd : (st.getSlot q).epoch % 2 = 1
        · rw [if_pos hodd]
          exact ⟨st, rfl, rfl, rfl⟩
        · rw [if_neg hodd]
          exact ⟨_, rfl, setSlot_length st q _, rfl⟩
  | opSetLabel k m =>
    simp only [stepOp, splinter_set_label]
    cases hpf : probeFind st (fnv1a k) k with
    | none => exact ⟨st, rfl, rfl, rfl⟩
    | some q =>
      simp only []
      exact ⟨_, rfl, setSlot_length st q _, rfl⟩
  | opSetNamedType k m =>
    simp only [stepOp, splinter_set_named_type]
    cases hpf : probeFind st (fnv1a k) k with
    | none => exact ⟨st, rfl, rfl, rfl⟩
    | some q =>
      simp only []
      by_cases hodd : (st.getSlot q).epoch % 2 = 1
      · rw [if_pos hodd]
        exact ⟨st, rfl, rfl, rfl⟩
      · rw [if_neg hodd]
        by_cases hbig : m.testBit 2 ∧ (st.getSlot q).val_len < 8
        · rw [if_pos hbig]
          by_cases hmem : st.header.val_sz < st.header.val_brk + 8
          · rw [if_pos hmem]
            exact ⟨_, rfl, setSlot_length st q _, rfl⟩
          · rw [if_neg hmem]
            exact ⟨_, rfl, setSlot_length st q _, rfl⟩
        · rw [if_neg hbig]
          exact ⟨_, rfl, setSlot_length st q _, rfl⟩
  | opSetEmbedding k vec =>
    simp only [stepOp, splinter_set_embedding]
    cases hpf : probeFind st (fnv1a k) k with
    | none => exact ⟨st, rfl, rfl, rfl⟩
    | some q =>
      simp only []
      by_cases hodd : (st.getSlot q).epoch % 2 = 1
      · rw [if_pos hodd]
        exact ⟨st, rfl, rfl, rfl⟩
      · rw [if_neg hodd]
        exact ⟨_, rfl, setSlot_length st q _, rfl⟩
  | opSetSlotTime k mode ep off =>
    simp only [stepOp, splinter_set_slot_time]
    cases hpf : probeFind st (fnv1a k) k with
    | none => exact ⟨st, rfl, rfl, rfl⟩
    | some q =>
      simp only []
      by_cases hodd : (st.getSlot q).epoch % 2 = 1
      · rw [if_pos hodd]
        exact ⟨st, rfl, rfl, rfl⟩
      · rw [if_neg hodd]
        by_cases hm : mode = SPL_TIME_CTIME
        · rw [if_pos hm]
          exact ⟨_, rfl, setSlot_length st q _, rfl⟩
        · rw [if_neg hm]
          by_cases hm2 : mode = SPL_TIME_ATIME
          · rw [if_pos hm2]
            exact ⟨_, rfl, setSlot_length st q _, rfl⟩
          · rw [if_neg hm2]
            exact ⟨st, rfl, rfl, rfl⟩
  | opPurge =>
    simp only [stepOp, splinter_purge]
    refine ⟨_, rfl, foldl_purgeSlot_length _ st, ?_⟩
    rw [foldl_purgeSlot_header]
  | opWatchRegister k g =>
    simp only [stepOp, splinter_watch_register]
    by_cases hg : SPLINTER_MAX_GROUPS ≤ g
    · rw [if_pos hg]
      exact ⟨st, rfl, rfl, rfl⟩
    · rw [if_neg hg]
      cases hpf : probeFind st (fnv1a k) k with
      | none => exact ⟨st, rfl, rfl, rfl⟩
      | some q =>
        simp only []
        exact ⟨_, rfl, setSlot_length st q _, rfl⟩
  | opWatchUnregister k g =>
    simp only [stepOp, splinter_watch_unregister]
    by_cases hg : SPLINTER_MAX_GROUPS ≤ g
    · rw [if_pos hg]
      exact ⟨st, rfl, rfl, rfl⟩
    · rw [if_neg hg]
      cases hpf : probeFind st (fnv1a k) k with
      | none => exact ⟨st, rfl, rfl, rfl⟩
      | some q =>
        simp only []
        exact ⟨_, rfl, setSlot_length st q _, rfl⟩
  | opWatchLabelRegister m g =>
    simp only [stepOp, splinter_watch_label_register]
    by_cases hg : SPLINTER_MAX_GROUPS ≤ g
    · rw [if_pos hg]
      exact ⟨st, rfl, rfl, rfl⟩
    · rw [if_neg hg]
      exact ⟨_, rfl, rfl, rfl⟩
  | opSetAv mode =>
    simp only [stepOp, splinter_set_av]
    by_cases h1 : mode = 1
    · rw [if_pos h1]
      exact ⟨_, rfl, rfl, rfl⟩
    · rw [if_neg h1]
      by_cases h0 : mode = 0
      · rw [if_pos h0]
        exact ⟨_, rfl, rfl, rfl⟩
      · rw [if_neg h0]
        exact ⟨st, rfl, rfl, rfl⟩
  | opSetHybridAv =>
    simp only [stepOp, splinter_set_hybrid_av]
    exact ⟨_, rfl, rfl, rfl⟩

/-- Well-formedness is preserved by every operation: the hypotheses of the
shape `st.slotTable.length = st.header.slots` in the claim theorems hold in
every store reachable from `splinter_create`. -/
theorem runOps_wf (ops : List SplinterOp) : ∀ st : Store, wfStore st →
    ∃ st', runOps (some st) ops = some st' ∧ wfStore st' := by
  induction ops with
  | nil => intro st hwf; exact ⟨st, rfl, hwf⟩
  | cons op t ih =>
    intro st hwf
    obtain ⟨st1, hstep, hlen, hslots⟩ := stepOp_geometry st op
    obtain ⟨st', hrun, hwf'⟩ := ih st1 (by
      unfold wfStore at hwf ⊢
      rw [hlen, hslots]
      exact hwf)
    refine ⟨st', ?_, hwf'⟩
    show runOps (stepOp (some st) op) t = some st'
    rw [hstep]
    exact hrun

/-! ## Quiescence: all slot epochs are even between operations

The reader-side hypotheses of the claim theorems (`epoch % 2 = 0`) hold in
every state reachable from `splinter_create` under the sequential semantics:
creation zeroes every epoch and each operation restores even parity before
returning. -/

/-- All slot epochs even (the quiescent-state invariant). -/
def allEven (st : Store) : Prop := ∀ p, (st.getSlot p).epoch % 2 = 0

theorem createStore_allEven (slots max_value_sz : Nat) :
    allEven (createStore slots max_value_sz) := by
  intro p
  show ((createStore slots max_value_sz).slotTable.getD p default).epoch % 2 = 0
  rw [List.getD_eq_getD_get?]
  cases hg : ((createStore slots max_value_sz).slotTable.get? p) with
  | none => rfl
  | some s =>
    have hmem : s ∈ (createStore slots max_value_sz).slotTable :=
      List.get?_mem hg
    obtain ⟨i, _, rfl⟩ := List.mem_map.mp hmem
    rfl

theorem setSlot_allEven (st : Store) (q : Nat) (s : Slot)
    (he : allEven st) (hs : s.epoch % 2 = 0) : allEven (st.setSlot q s) := by
  intro p
  rw [getSlot_setSlot]
  by_cases hc : p = q ∧ q < st.slotTable.length
  · rw [if_pos hc]
    exact hs
  · rw [if_neg hc]
    exact he p

theorem setLoop_allEven (st : Store) (hash : Nat) (key val : List Nat)
    (he : allEven st) :
    ∀ ps : List Nat, allEven (setLoop st hash key val ps).2 := by
  intro ps
  induction ps with
  | nil => exact he
  | cons p rest ih =>
    simp only [setLoop]
    by_cases hacc : (st.getSlot p).hash = 0 ∨ ((st.getSlot p).hash = hash ∧
        cstrncmpEq (st.getSlot p).key key SPLINTER_KEY_MAX = true)
    · rw [if_pos hacc]
      by_cases hodd : (st.getSlot p).epoch % 2 = 1
      · rw [if_pos hodd]; exact ih
      · rw [if_neg hodd]
        by_cases hbound : st.header.slots * st.header.max_val_sz ≤ (st.getSlot p).val_off ∨
            st.header.slots * st.header.max_val_sz < (st.getSlot p).val_off + val.length
        · rw [if_pos hbound]
          exact setSlot_allEven st p _ he (by have := he p; simp; omega)
        · rw [if_neg hbound]
          intro q
          rw [setCommit_getSlot, getSlot_setSlot]
          by_cases hc : q = p ∧ p < st.slotTable.length
          · rw [if_pos hc]
            show ((st.getSlot p).epoch + 2) % 2 = 0
            have := he p
            omega
          · rw [if_neg hc]
            exact he q
    · rw [if_neg hacc]; exact ih

theorem purgeSlot_allEven (st : Store) (q : Nat) (he : allEven st) :
    allEven (purgeSlot st q) := by
  unfold purgeSlot
  by_cases hodd : (st.getSlot q).epoch % 2 = 1
  · rw [if_pos hodd]; exact he
  · rw [if_neg hodd]
    intro p
    show ((st.setSlot q _).getSlot p).epoch % 2 = 0
    exact setSlot_allEven st q _ he (by have := he q; simp; omega) p

theorem foldl_purgeSlot_allEven (l : List Nat) : ∀ st : Store, allEven st →
    allEven (l.foldl purgeSlot st) := by
  induction l with
  | nil => intro st he; exact he
  | cons q t ih =>
    intro st he
    exact ih (purgeSlot st q) (purgeSlot_allEven st q he)

/-- Every operation leaves all slot epochs even. -/
theorem stepOp_allEven (st st' : Store) (op : SplinterOp)
    (h : stepOp (some st) op = some st') (he : allEven st) : allEven st' := by
  cases op with
  | opSet k v =>
    simp only [stepOp, splinter_set] at h
    by_cases hv : v.length = 0 ∨ st.header.max_val_sz < v.length
    · rw [if_pos hv] at h
      injection h with h
      subst h
      exact he
    · rw [if_neg hv] at h
      injection h with h
      subst h
      exact setLoop_allEven st _ k v he _
  | opUnset k =>
    simp only [stepOp, splinter_unset] at h
    split at h
    · injection h with h
      subst h
      exact he
    · split at h
      · injection h with h
        subst h
        exact he
      · injection h with h
        subst h
        intro p
        show ((st.setSlot _ _).getSlot p).epoch % 2 = 0
        exact setSlot_allEven st _ _ he (by simp) p
  | opIntegerOp k o m =>
    simp only [stepOp, splinter_integer_op] at h
    split at h
    · injection h with h
      subst h
      exact he
    · rename_i q hpf
      split at h
      · injection h with h
        subst h
        exact he
      · split at h
        · injection h with h
          subst h
          exact he
        · injection h with h
          subst h
          intro p
          show ((st.setSlot q _).getSlot p).epoch % 2 = 0
          exact setSlot_allEven st q _ he (by have := he q; simp; omega) p
  | opSetLabel k m =>
    simp only [stepOp, splinter_set_label] at h
    split at h
    · injection h with h
      subst h
      exact he
    · rename_i q hpf
      injection h with h
      subst h
      intro p
      show ((st.setSlot q _).getSlot p).epoch % 2 = 0
      exact setSlot_allEven st q _ he (by exact he q) p
  | opSetNamedType k m =>
    simp only [stepOp, splinter_set_named_type] at h
    split at h
    · injection h with h
      subst h
      exact he
    · rename_i q hpf
      split at h
      · injection h with h
        subst h
        exact he
      · split at h
        · split at h
          · injection h with h
            subst h
            intro p
            show ((st.setSlot q _).getSlot p).epoch % 2 = 0
            exact setSlot_allEven st q _ he (by have := he q; simp; omega) p
          · injection h with h
            subst h
            intro p
            show ((st.setSlot q _).getSlot p).epoch % 2 = 0
            exact setSlot_allEven st q _ he (by have := he q; simp; omega) p
        · injection h with h
          subst h
          intro p
          show ((st.setSlot q _).getSlot p).epoch % 2 = 0
          exact setSlot_allEven st q _ he (by have := he q; simp; omega) p
  | opSetEmbedding k vec =>
    simp only [stepOp, splinter_set_embedding] at h
    split at h
    · injection h with h
      subst h
      exact he
    · rename_i q hpf
      split at h
      · injection h with h
        subst h
        exact he
      · injection h with h
        subst h
        intro p
        show ((st.setSlot q _).getSlot p).epoch % 2 = 0
        exact setSlot_allEven st q _ he (by have := he q; simp; omega) p
  | opSetSlotTime k mode ep off =>
    simp only [stepOp, splinter_set_slot_time] at h
    split at h
    · injection h with h
      subst h
      exact he
    · rename_i q hpf
      split at h
      · injection h with h
        subst h
        exact he
      · split at h
        · injection h with h
          subst h
          intro p
          show ((st.setSlot q _).getSlot p).epoch % 2 = 0
          exact setSlot_allEven st q _ he (by exact he q) p
        · split at h
          · injection h with h
            subst h
            intro p
            show ((st.setSlot q _).getSlot p).epoch % 2 = 0
            exact setSlot_allEven st q _ he (by exact he q) p
          · injection h with h
            subst h
            exact he
  | opPurge =>
    simp only [stepOp, splinter_purge] at h
    injection h with h
    subst h
    exact foldl_purgeSlot_allEven _ st he
  | opWatchRegister k g =>
    simp only [stepOp, splinter_watch_register] at h
    split at h
    · injection h with h
      subst h
      exact he
    · split at h
      · injection h with h
        subst h
        exact he
      · rename_i q hpf
        injection h with h
        subst h
        intro p
        show ((st.setSlot q _).getSlot p).epoch % 2 = 0
        exact setSlot_allEven st q _ he (by exact he q) p
  | opWatchUnregister k g =>
    simp only [stepOp, splinter_watch_unregister] at h
    split at h
    · injection h with h
      subst h
      exact he
    · split at h
      · injection h with h
        subst h
        exact he
      · rename_i q hpf
        injection h with h
        subst h
        intro p
        show ((st.setSlot q _).getSlot p).epoch % 2 = 0
        exact setSlot_allEven st q _ he (by exact he q) p
  | opWatchLabelRegister m g =>
    simp only [stepOp, splinter_watch_label_register] at h
    split at h
    · injection h with h
      subst h
      exact he
    · injection h with h
      subst h
      exact he
  | opSetAv mode =>
    simp only [stepOp, splinter_set_av] at h
    split at h
    · injection h with h
      subst h
      exact he
    · split at h
      · injection h with h
        subst h
        exact he
      · injection h with h
        subst h
        exact he
  | opSetHybridAv =>
    simp only [stepOp, splinter_set_hybrid_av] at h
    injection h with h
    subst h
    exact he

/-- Quiescence along whole operation sequences: every state reachable from a
freshly created region has even epochs in every slot. -/
theorem runOps_allEven (ops : List SplinterOp) : ∀ st : Store, allEven st →
    ∀ st', runOps (some st) ops = some st' → allEven st' := by
  induction ops with
  | nil =>
    intro st he st' h
    injection h with h
    subst h
    exact he
  | cons op t ih =>
    intro st he st' h
    obtain ⟨st1, hstep, -, -⟩ := stepOp_geometry st op
    rw [show runOps (some st) (op :: t) = runOps (stepOp (some st) op) t from rfl,
      hstep] at h
    exact ih st1 (stepOp_allEven st st1 op hstep he) st' h

/-- Every state reachable from a freshly created region satisfies the
geometry invariant and the quiescence invariant, so the corresponding
hypotheses of the claim theorems are not vacuous restrictions. -/
theorem reachable_invariants (slots max_value_sz : Nat) (ops : List SplinterOp)
    (st' : Store)
    (h : runOps (some (createStore slots max_value_sz)) ops = some st') :
    wfStore st' ∧ allEven st' := by
  constructor
  · obtain ⟨st'', hrun, hwf⟩ :=
      runOps_wf ops (createStore slots max_value_sz) (createStore_wf _ _)
    rw [h] at hrun
    injection hrun with hh
    rw [hh]
    exact hwf
  · exact runOps_allEven ops (createStore slots max_value_sz)
      (createStore_allEven _ _) st' h

/-! ## Success-path characterizations -/

theorem probeFind_pos_lt (st : Store) (hash : Nat) (key : List Nat) (p : Nat)
    (h : probeFind st hash key = some p) : p < st.header.slots := by
  have hmem := List.mem_of_find?_eq_some h
  rcases Nat.eq_zero_or_pos st.header.slots with h0 | hpos
  · rw [h0] at hmem
    simp [probePositions] at hmem
  · exact probePositions_mem_lt _ _ hpos p hmem

theorem probePositions_mem_pos (slots hash p : Nat)
    (h : p ∈ probePositions slots hash) : 0 < slots := by
  rcases Nat.eq_zero_or_pos slots with h0 | hpos
  · rw [h0] at h
    simp [probePositions] at h
  · exact hpos

/-- A successful `splinter_set` commits the write at some probed position
whose slot was quiescent on entry. -/
theorem splinter_set_success (st st' : Store) (key val : List Nat)
    (h : splinter_set (some st) key val = (0, some st')) :
    ∃ p ∈ probePositions st.header.slots (fnv1a key),
      (st.getSlot p).epoch % 2 = 0 ∧ st' = setCommit st p (fnv1a key) key val := by
  simp only [splinter_set] at h
  by_cases hv : val.length = 0 ∨ st.header.max_val_sz < val.length
  · rw [if_pos hv] at h
    simp at h
  · rw [if_neg hv] at h
    have h1 : (setLoop st (fnv1a key) key val
        (probePositions st.header.slots (fnv1a key))).1 = 0 := by
      have := congrArg Prod.fst h
      simpa using this
    have h2 : (setLoop st (fnv1a key) key val
        (probePositions st.header.slots (fnv1a key))).2 = st' := by
      have := congrArg Prod.snd h
      simpa using this
    obtain ⟨p, hmem, _, hq, _, hcommit⟩ :=
      setLoop_success st (fnv1a key) key val _ st' (setLoop_pair_eq _ _ _ _ _ _ h1 h2)
    exact ⟨p, hmem, hq, hcommit⟩

/-- A successful `splinter_integer_op` targets the probed slot, increments the
global epoch by exactly 1, leaves every signal counter unchanged, and leaves
the slot epoch `+2` from entry. -/
theorem splinter_integer_op_success (st st' : Store) (key : List Nat)
    (op : IntegerOp) (m : Option Nat)
    (h : splinter_integer_op (some st) key op m = (0, some st')) :
    st'.header.epoch = st.header.epoch + 1 ∧
    (∀ g, st'.header.signal_groups g = st.header.signal_groups g) ∧
    ∃ p, probeFind st (fnv1a key) key = some p ∧
      (st.getSlot p).epoch % 2 = 0 ∧
      (p < st.slotTable.length → (st'.getSlot p).epoch = (st.getSlot p).epoch + 2) := by
  simp only [splinter_integer_op] at h
  split at h
  · simp at h
  · rename_i p hpf
    split at h
    · simp at h
    · rename_i ht
      split at h
      · simp at h
      · rename_i hodd
        injection h with h1 h2
        injection h2 with h2
        subst h2
        refine ⟨rfl, fun g => rfl, p, hpf, by omega, fun hq => ?_⟩
        show ((st.setSlot p _).getSlot p).epoch = _
        rw [getSlot_setSlot, if_pos ⟨rfl, hq⟩]

/-- A successful `splinter_set_embedding` increments the global epoch by 1 and
leaves every signal counter unchanged. -/
theorem splinter_set_embedding_success (st st' : Store) (key vec : List Nat)
    (h : splinter_set_embedding (some st) key vec = (0, some st')) :
    st'.header.epoch = st.header.epoch + 1 ∧
    (∀ g, st'.header.signal_groups g = st.header.signal_groups g) ∧
    ∃ p, probeFind st (fnv1a key) key = some p ∧
      (st.getSlot p).epoch % 2 = 0 ∧
      (p < st.slotTable.length → (st'.getSlot p).epoch = (st.getSlot p).epoch + 2) := by
  simp only [splinter_set_embedding] at h
  split at h
  · simp at h
  · rename_i p hpf
    split at h
    · simp at h
    · rename_i hodd
      injection h with h1 h2
      injection h2 with h2
      subst h2
      refine ⟨rfl, fun g => rfl, p, hpf, by omega, fun hq => ?_⟩
      show ((st.setSlot p _).getSlot p).epoch = _
      rw [getSlot_setSlot, if_pos ⟨rfl, hq⟩]

/-- A successful `splinter_set_named_type` (with or without relocation)
increments the global epoch by 1 and leaves the probed slot's epoch `+2` from
its (even) entry value. -/
theorem splinter_set_named_type_success (st st' : Store) (key : List Nat)
    (mask : Nat)
    (h : splinter_set_named_type (some st) key mask = (0, some st')) :
    st'.header.epoch = st.header.epoch + 1 ∧
    ∃ p, probeFind st (fnv1a key) key = some p ∧
      (st.getSlot p).epoch % 2 = 0 ∧
      (p < st.slotTable.length → (st'.getSlot p).epoch = (st.getSlot p).epoch + 2) := by
  simp only [splinter_set_named_type] at h
  split at h
  · simp at h
  · rename_i p hpf
    split at h
    · simp at h
    · rename_i hodd
      split at h
      · split at h
        · simp at h
        · injection h with h1 h2
          injection h2 with h2
          subst h2
          refine ⟨rfl, p, hpf, by omega, fun hq => ?_⟩
          show ((st.setSlot p _).getSlot p).epoch = _
          rw [getSlot_setSlot, if_pos ⟨rfl, hq⟩]
      · injection h with h1 h2
        injection h2 with h2
        subst h2
        refine ⟨rfl, p, hpf, by omega, fun hq => ?_⟩
        show ((st.setSlot p _).getSlot p).epoch = _
        rw [getSlot_setSlot, if_pos ⟨rfl, hq⟩]

/-- `splinter_unset` never changes the global header epoch (nor any other
header field). -/
theorem splinter_unset_header (st st' : Store) (key : List Nat) (r : Int)
    (h : splinter_unset (some st) key = (r, some st')) :
    st'.header = st.header := by
  simp only [splinter_unset] at h
  split at h
  · injection h with h1 h2
    injection h2 with h2
    subst h2
    rfl
  · rename_i p hpf
    split at h
    · injection h with h1 h2
      injection h2 with h2
      subst h2
      rfl
    · injection h with h1 h2
      injection h2 with h2
      subst h2
      rfl

/-- A successful `splinter_unset` stores epoch 0 and then adds 2: the slot's
epoch after the call is always exactly 2 regardless of its entry value. -/
theorem splinter_unset_success_slot (st st' : Store) (key : List Nat) (r : Int)
    (hlen : st.slotTable.length = st.header.slots)
    (h : splinter_unset (some st) key = (r, some st')) (hr : 0 ≤ r) :
    ∃ p, probeFind st (fnv1a key) key = some p ∧ (st'.getSlot p).epoch = 2 := by
  simp only [splinter_unset] at h
  split at h
  · injection h with h1 h2
    subst h1
    omega
  · rename_i p hpf
    split at h
    · injection h with h1 h2
      subst h1
      omega
    · injection h with h1 h2
      injection h2 with h2
      subst h2
      have hq : p < st.slotTable.length := by
        rw [hlen]
        exact probeFind_pos_lt st (fnv1a key) key p hpf
      refine ⟨p, hpf, ?_⟩
      show ((st.setSlot p _).getSlot p).epoch = 2
      rw [getSlot_setSlot, if_pos ⟨rfl, hq⟩]

/-! ## Concrete stores used to instantiate the theorems -/

/-- A freshly created 2-slot region with 8-byte values. -/
def stMini : Store := createStore 2 8

/-- `stMini` after `splinter_set("a", {10, 20}, 2)`. -/
def stMiniSet : Store := ((splinter_set (some stMini) [97] [10, 20]).2).getD stMini

/-- A 64-byte key (64 times ASCII `a`): one byte longer than the key buffer
can hold. -/
def longKey : List Nat := List.replicate 64 97

/-- `stMini` after a second `splinter_set("a", {30}, 1)`: the slot epoch of
slot 0 is now 4. -/
def stMiniSet2 : Store := ((splinter_set (some stMiniSet) [97] [30]).2).getD stMiniSet

/-- `stMiniSet2` after `splinter_unset("a")`. -/
def stMiniUnset2 : Store := ((splinter_unset (some stMiniSet2) [97]).2).getD stMiniSet2

/-- `stMiniSet` after `splinter_unset("a")`. -/
def stMiniUnset : Store := ((splinter_unset (some stMiniSet) [97]).2).getD stMiniSet

/-- `stMiniSet` after `splinter_set_embedding("a", vec)`. -/
def stMiniEmb : Store := ((splinter_set_embedding (some stMiniSet) [97] [3]).2).getD stMiniSet

/-- A freshly created single-slot region with 8-byte values. -/
def stOne : Store := createStore 1 8

/-- `stOne` after `splinter_set("a", &seven_u64, 8)`. -/
def stOneSet : Store :=
  ((splinter_set (some stOne) [97] [7, 0, 0, 0, 0, 0, 0, 0]).2).getD stOne

/-- `stOneSet` after `splinter_set_named_type("a", SPL_SLOT_TYPE_BIGUINT)`
(no relocation: the current `val_len` is already 8). -/
def stOneBig : Store := ((splinter_set_named_type (some stOneSet) [97] 4).2).getD stOneSet

/-- `stOneBig` after `splinter_integer_op("a", SPL_OP_INC, &one_u64)`. -/
def stOneInc : Store :=
  ((splinter_integer_op (some stOneBig) [97] IntegerOp.opInc (some 1)).2).getD stOneBig

/-- `stOneBig` after `splinter_watch_register("a", 5)`. -/
def stOneWatch : Store :=
  ((splinter_watch_register (some stOneBig) [97] 5).2).getD stOneBig

/-- C1 counterexample: for a 64-byte key, `splinter_set` succeeds (it stores
the key truncated to 63 bytes) but a subsequent `splinter_get` with the same
key returns *not found* — neither the retry condition nor the value — because
the get-side `strncmp` compares the stored truncated key against the caller's
untruncated key.  So the claim is false for keys longer than 63 bytes. -/
theorem c1_longkey_counterexample :
    (splinter_set (some stMini) longKey [1]).1 = 0 ∧
    (splinter_get ((splinter_set (some stMini) longKey [1]).2) longKey
        (some [0]) 1).1 = GetResult.notFound := by
  constructor
  · decide
  · decide

/-- C1 witness: the amended round trip evaluated on a concrete store, key
`"a"`, value `{10, 20}` and a 3-byte buffer. -/
theorem c1_roundtrip_witness :
    (splinter_get (some stMiniSet) [97] (some [9, 9, 9]) 3).1 = GetResult.againErr ∨
    splinter_get (some stMiniSet) [97] (some [9, 9, 9]) 3
      = (GetResult.ok, some ([10, 20] : List Nat).length,
         some ([10, 20] ++ ([9, 9, 9] : List Nat).drop ([10, 20] : List Nat).length)) :=
  c1_set_get_roundtrip stMini stMiniSet [97] [10, 20] [9, 9, 9] 3
    (by decide) (by decide) (by decide) (by rfl)

/-- C2 (amended): the global header epoch is non-decreasing over the region's
lifetime under any sequence of public operations, and every successful
`splinter_set`, `splinter_integer_op` and `splinter_set_embedding` increments
it by exactly one; a successful `splinter_unset`, however, leaves it unchanged
(contrary to the original claim, whose unset clause the code does not
implement). -/
theorem c2_global_epoch_amended :
    (∀ (os : Option Store) (ops : List SplinterOp),
        headerEpoch os ≤ headerEpoch (runOps os ops)) ∧
    (∀ (st st' : Store) (k v : List Nat),
        splinter_set (some st) k v = (0, some st') →
        st'.header.epoch = st.header.epoch + 1) ∧
    (∀ (st st' : Store) (k : List Nat) (op : IntegerOp) (m : Option Nat),
        splinter_integer_op (some st) k op m = (0, some st') →
        st'.header.epoch = st.header.epoch + 1) ∧
    (∀ (st st' : Store) (k vec : List Nat),
        splinter_set_embedding (some st) k vec = (0, some st') →
        st'.header.epoch = st.header.epoch + 1) ∧
    (∀ (st st' : Store) (k : List Nat) (r : Int),
        splinter_unset (some st) k = (r, some st') →
        st'.header.epoch = st.header.epoch) := by
  refine ⟨fun os ops => runOps_header_epoch_mono ops os, ?_, ?_, ?_, ?_⟩
  · intro st st' k v h
    obtain ⟨p, _, _, hc⟩ := splinter_set_success st st' k v h
    rw [hc]
    exact setCommit_header_epoch st p (fnv1a k) k v
  · intro st st' k op m h
    exact (splinter_integer_op_success st st' k op m h).1
  · intro st st' k vec h
    exact (splinter_set_embedding_success st st' k vec h).1
  · intro st st' k r h
    rw [splinter_unset_header st st' k r h]

/-- C2 counterexample: on a concrete store, `splinter_unset` succeeds
(returning the deleted length, which is ≥ 0) yet the global epoch stays at 2;
the claim requires every successful unset to increment it. -/
theorem c2_unset_counterexample :
    0 ≤ (splinter_unset (some stMiniSet) [97]).1 ∧
    headerEpoch (some stMiniSet) = 2 ∧
    headerEpoch (splinter_unset (some stMiniSet) [97]).2 = 2 := by
  exact ⟨by decide, by decide, by decide⟩

/-- C2 witness: the amended claim evaluated on concrete stores. -/
theorem c2_witness :
    headerEpoch (some stMini) ≤
      headerEpoch (runOps (some stMini) [SplinterOp.opSet [97] [10, 20]]) ∧
    stMiniSet.header.epoch = stMini.header.epoch + 1 ∧
    stOneInc.header.epoch = stOneBig.header.epoch + 1 ∧
    stMiniEmb.header.epoch = stMiniSet.header.epoch + 1 ∧
    stMiniUnset.header.epoch = stMiniSet.header.epoch := by
  obtain ⟨h1, h2, h3, h4, h5⟩ := c2_global_epoch_amended
  exact ⟨h1 (some stMini) [SplinterOp.opSet [97] [10, 20]],
    h2 stMini stMiniSet [97] [10, 20] (by rfl),
    h3 stOneBig stOneInc [97] IntegerOp.opInc (some 1) (by rfl),
    h4 stMiniSet stMiniEmb [97] [3] (by rfl),
    h5 stMiniSet stMiniUnset [97] 2 (by rfl)⟩

/-- C3 (amended): every public operation except `splinter_unset` leaves each
slot's epoch at or above its entry value, and every committed write other than
unset — `splinter_set`, `splinter_integer_op`, `splinter_set_named_type`,
`splinter_set_embedding` — leaves the written slot's epoch at exactly its
entry value + 2; `splinter_unset`, however, resets the slot epoch to 2 (it
stores 0 and then adds 2), so the original unconditional monotonicity claim
fails at unset. -/
theorem c3_slot_epoch_amended :
    (∀ (os : Option Store) (op : SplinterOp), op.isUnset = false →
        ∀ p, slotEpoch os p ≤ slotEpoch (stepOp os op) p) ∧
    (∀ (st st' : Store) (k v : List Nat),
        st.slotTable.length = st.header.slots →
        splinter_set (some st) k v = (0, some st') →
        ∃ p, (st'.getSlot p).epoch = (st.getSlot p).epoch + 2) ∧
    (∀ (st st' : Store) (k : List Nat) (op : IntegerOp) (m : Option Nat),
        st.slotTable.length = st.header.slots →
        splinter_integer_op (some st) k op m = (0, some st') →
        ∃ p, (st'.getSlot p).epoch = (st.getSlot p).epoch + 2) ∧
    (∀ (st st' : Store) (k : List Nat) (mask : Nat),
        st.slotTable.length = st.header.slots →
        splinter_set_named_type (some st) k mask = (0, some st') →
        ∃ p, (st'.getSlot p).epoch = (st.getSlot p).epoch + 2) ∧
    (∀ (st st' : Store) (k vec : List Nat),
        st.slotTable.length = st.header.slots →
        splinter_set_embedding (some st) k vec = (0, some st') →
        ∃ p, (st'.getSlot p).epoch = (st.getSlot p).epoch + 2) ∧
    (∀ (st st' : Store) (k : List Nat) (r : Int),
        st.slotTable.length = st.header.slots →
        splinter_unset (some st) k = (r, some st') → 0 ≤ r →
        ∃ p, probeFind st (fnv1a k) k = some p ∧ (st'.getSlot p).epoch = 2) := by
  refine ⟨stepOp_slot_epoch_mono, ?_, ?_, ?_, ?_, ?_⟩
  · intro st st' k v hlen h
    obtain ⟨p, hmem, _, hc⟩ := splinter_set_success st st' k v h
    have hp : p < st.slotTable.length := by
      rw [hlen]
      exact probePositions_mem_lt _ _ (probePositions_mem_pos _ _ _ hmem) p hmem
    refine ⟨p, ?_⟩
    rw [hc, setCommit_getSlot, getSlot_setSlot, if_pos ⟨rfl, hp⟩]
    rfl
  · intro st st' k op m hlen h
    obtain ⟨-, -, p, hpf, -, hslot⟩ := splinter_integer_op_success st st' k op m h
    exact ⟨p, hslot (hlen ▸ probeFind_pos_lt st (fnv1a k) k p hpf)⟩
  · intro st st' k mask hlen h
    obtain ⟨-, p, hpf, -, hslot⟩ := splinter_set_named_type_success st st' k mask h
    exact ⟨p, hslot (hlen ▸ probeFind_pos_lt st (fnv1a k) k p hpf)⟩
  · intro st st' k vec hlen h
    obtain ⟨-, -, p, hpf, -, hslot⟩ := splinter_set_embedding_success st st' k vec h
    exact ⟨p, hslot (hlen ▸ probeFind_pos_lt st (fnv1a k) k p hpf)⟩
  · intro st st' k r hlen h hr
    exact splinter_unset_success_slot st st' k r hlen h hr

/-- C3 counterexample: after two committed writes the slot's epoch is 4; a
successful `splinter_unset` then leaves it at 2 < 4, violating the claimed
non-decreasing slot-epoch sequence. -/
theorem c3_unset_counterexample :
    0 ≤ (splinter_unset (some stMiniSet2) [97]).1 ∧
    slotEpoch (some stMiniSet2) 0 = 4 ∧
    slotEpoch ((splinter_unset (some stMiniSet2) [97]).2) 0 = 2 ∧
    ¬ slotEpoch (some stMiniSet2) 0 ≤
        slotEpoch ((splinter_unset (some stMiniSet2) [97]).2) 0 := by
  exact ⟨by decide, by decide, by decide, by decide⟩

/-- C3 witness: the amended claim evaluated on concrete stores. -/
theorem c3_witness :
    slotEpoch (some stMini) 0 ≤
      slotEpoch (stepOp (some stMini) (SplinterOp.opSet [97] [10, 20])) 0 ∧
    (∃ p, (stMiniSet.getSlot p).epoch = (stMini.getSlot p).epoch + 2) ∧
    (∃ p, (stOneInc.getSlot p).epoch = (stOneBig.getSlot p).epoch + 2) ∧
    (∃ p, (stOneBig.getSlot p).epoch = (stOneSet.getSlot p).epoch + 2) ∧
    (∃ p, (stMiniEmb.getSlot p).epoch = (stMiniSet.getSlot p).epoch + 2) ∧
    (∃ p, probeFind stMiniSet2 (fnv1a [97]) [97] = some p ∧
       (stMiniUnset2.getSlot p).epoch = 2) := by
  obtain ⟨h1, h2, h3, h4, h5, h6⟩ := c3_slot_epoch_amended
  exact ⟨h1 (some stMini) (SplinterOp.opSet [97] [10, 20]) (by decide) 0,
    h2 stMini stMiniSet [97] [10, 20] (by decide) (by rfl),
    h3 stOneBig stOneInc [97] IntegerOp.opInc (some 1) (by decide) (by rfl),
    h4 stOneSet stOneBig [97] 4 (by decide) (by rfl),
    h5 stMiniSet stMiniEmb [97] [3] (by decide) (by rfl),
    h6 stMiniSet2 stMiniUnset2 [97] 1 (by decide) (by rfl) (by decide)⟩

/-- C4 (amended): only `splinter_set` runs the pulse routine after publishing
the epoch.  On a committed set, `signal_groups[i]` grows by one for each bit
`i` set in the written slot's `watcher_mask`, and each bit `b` set in the
slot's `bloom` whose `bloom_watches[b]` entry is a valid group id (< 64 — in
particular not the `0xFF` sentinel) adds one to that group's counter.
`splinter_integer_op` and `splinter_set_embedding` leave every signal counter
unchanged, contrary to the original claim. -/
theorem c4_pulse_amended :
    (∀ (st st' : Store) (k v : List Nat),
        splinter_set (some st) k v = (0, some st') →
        ∃ p ∈ probePositions st.header.slots (fnv1a k), ∀ g,
          st'.header.signal_groups g
            = st.header.signal_groups g
              + (if g < 64 ∧ (st.getSlot p).watcher_mask.testBit g then 1 else 0)
              + bloomPulseCount st.header (st.getSlot p).bloom g) ∧
    (∀ (st st' : Store) (k : List Nat) (op : IntegerOp) (m : Option Nat),
        splinter_integer_op (some st) k op m = (0, some st') →
        ∀ g, st'.header.signal_groups g = st.header.signal_groups g) ∧
    (∀ (st st' : Store) (k vec : List Nat),
        splinter_set_embedding (some st) k vec = (0, some st') →
        ∀ g, st'.header.signal_groups g = st.header.signal_groups g) := by
  refine ⟨?_, ?_, ?_⟩
  · intro st st' k v h
    obtain ⟨p, hmem, _, hc⟩ := splinter_set_success st st' k v h
    refine ⟨p, hmem, fun g => ?_⟩
    rw [hc]
    exact setCommit_signal_groups st p (fnv1a k) k v g
  · intro st st' k op m h
    exact (splinter_integer_op_success st st' k op m h).2.1
  · intro st st' k vec h
    exact (splinter_set_embedding_success st st' k vec h).2.1

/-- C4 counterexample: a slot whose `watcher_mask` has bit 5 set undergoes a
successful `splinter_integer_op`, yet `signal_groups[5]` is not incremented —
the code pulses only from `splinter_set`. -/
theorem c4_integer_op_counterexample :
    (stOneWatch.getSlot 0).watcher_mask.testBit 5 = true ∧
    (splinter_integer_op (some stOneWatch) [97] IntegerOp.opInc (some 1)).1 = 0 ∧
    splinter_get_signal_count
        ((splinter_integer_op (some stOneWatch) [97] IntegerOp.opInc (some 1)).2) 5
      = splinter_get_signal_count (some stOneWatch) 5 := by
  exact ⟨by decide, by decide, by decide⟩

/-- C4 witness: the amended claim evaluated on concrete stores. -/
theorem c4_witness :
    (∃ p ∈ probePositions stMini.header.slots (fnv1a [97]), ∀ g,
        stMiniSet.header.signal_groups g
          = stMini.header.signal_groups g
            + (if g < 64 ∧ (stMini.getSlot p).watcher_mask.testBit g then 1 else 0)
            + bloomPulseCount stMini.header (stMini.getSlot p).bloom g) ∧
    (∀ g, stOneInc.header.signal_groups g = stOneBig.header.signal_groups g) ∧
    (∀ g, stMiniEmb.header.signal_groups g = stMiniSet.header.signal_groups g) := by
  obtain ⟨h1, h2, h3⟩ := c4_pulse_amended
  exact ⟨h1 stMini stMiniSet [97] [10, 20] (by rfl),
    h2 stOneBig stOneInc [97] IntegerOp.opInc (some 1) (by rfl),
    h3 stMiniSet stMiniEmb [97] [3] (by rfl)⟩

/-! ## C5: BIGUINT conversion -/

/-- When the stored string does not begin with `'0'`, `strtoull(…, NULL, 0)`
parses a plain decimal numeral (maximal digit run). -/
theorem strtoull0_decimal_of_head_ne_zero (c : Nat) (rest : List Nat)
    (hc : c ≠ 48) :
    strtoull0 (c :: rest) = parseDigitsAcc 10 decDigitVal (c :: rest) 0 := by
  simp [strtoull0, hc]

/-- Concrete stores for the conversion claims: a single-slot region holding
the three ASCII bytes `"010"` under key `"a"`. -/
def stOct : Store := createStore 1 4

def stOctSet : Store := ((splinter_set (some stOct) [97] [48, 49, 48]).2).getD stOct

def stOctConv : Store :=
  ((splinter_set_named_type (some stOctSet) [97] 4).2).getD stOctSet

/-- C5 (amended): a relocating BIGUINT conversion (`val_len < 8`, bump region
fits) leaves `val_len = 8`, re-points `val_off` at the old `val_brk`, and
stores the 64-bit value `convertValue old_bytes val_len`: the
`strtoull(tmp, NULL, 0)` base-0 parse of the first `min(val_len, 15)` bytes
when the first byte is an ASCII decimal digit (C-literal syntax: a leading
`0x` selects hex, a leading `0` selects octal, otherwise decimal — not the
plain decimal parse of the original claim), and the raw little-endian
zero-extension of the first `min(val_len, 8)` bytes otherwise.  The last
conjunct records that the original claim's decimal reading is restored
whenever the first byte is `'1'`–`'9'`. -/
theorem c5_biguint_conversion (st st' : Store) (k : List Nat) (mask : Nat)
    (p : Nat)
    (hlen : st.slotTable.length = st.header.slots)
    (hpf : probeFind st (fnv1a k) k = some p)
    (hres : splinter_set_named_type (some st) k mask = (0, some st'))
    (hbig : mask.testBit 2 = true)
    (hshort : (st.getSlot p).val_len < 8)
    (hroom : st.header.val_brk + 8 ≤ st.header.val_sz) :
    (st'.getSlot p).val_len = 8 ∧
    (st'.getSlot p).val_off = st.header.val_brk ∧
    bytesToU64 (readBytes st'.values st.header.val_brk 8)
      = convertValue
          (readBytes st.values (st.getSlot p).val_off (st.getSlot p).val_len)
          (st.getSlot p).val_len % 2 ^ 64 ∧
    (∀ (c : Nat) (rest : List Nat), c ≠ 48 →
      strtoull0 (c :: rest) = parseDigitsAcc 10 decDigitVal (c :: rest) 0) := by
  have hp : p < st.slotTable.length := by
    rw [hlen]
    exact probeFind_pos_lt st (fnv1a k) k p hpf
  simp only [splinter_set_named_type] at hres
  split at hres
  · simp at hres
  · rename_i q hpf'
    rw [hpf] at hpf'
    injection hpf' with hqp
    subst hqp
    split at hres
    · simp at hres
    · split at hres
      · split at hres
        · rename_i hmem
          omega
        · injection hres with h1 h2
          injection h2 with h2
          subst h2
          refine ⟨?_, ?_, ?_, fun c rest hc => strtoull0_decimal_of_head_ne_zero c rest hc⟩
          · show ((st.setSlot p _).getSlot p).val_len = 8
            rw [getSlot_setSlot, if_pos ⟨rfl, hp⟩]
          · show ((st.setSlot p _).getSlot p).val_off = st.header.val_brk
            rw [getSlot_setSlot, if_pos ⟨rfl, hp⟩]
          · show bytesToU64 (readBytes (writeBytes st.values st.header.val_brk
              (u64ToBytes _)) st.header.val_brk 8) = _
            rw [show (8 : Nat) = (u64ToBytes (convertValue
                (readBytes st.values (st.getSlot p).val_off (st.getSlot p).val_len)
                (st.getSlot p).val_len)).length from (u64ToBytes_length _).symm]
            rw [readBytes_writeBytes, bytesToU64_u64ToBytes]
      · rename_i hnot
        exact absurd ⟨hbig, hshort⟩ hnot

/-- C5 counterexample: the stored bytes `"010"` begin with the ASCII digit
`'0'`; the code's `strtoull(…, 0)` parses them as the *octal* numeral 8,
whereas the claimed unsigned decimal parse gives 10. -/
theorem c5_octal_counterexample :
    (splinter_set_named_type (some stOctSet) [97] 4).1 = 0 ∧
    readBytes stOctSet.values (stOctSet.getSlot 0).val_off 3 = [48, 49, 48] ∧
    isDigitByte 48 = true ∧
    bytesToU64 (readBytes stOctConv.values (stOctConv.getSlot 0).val_off 8) = 8 ∧
    parseDigitsAcc 10 decDigitVal [48, 49, 48] 0 = 10 ∧
    ¬ (8 : Nat) = 10 := by
  exact ⟨by decide, by decide, by decide, by decide, by decide, by decide⟩

/-- C5 witness: the amended conversion theorem applied to the concrete
`"010"` store. -/
theorem c5_witness :
    (stOctConv.getSlot 0).val_len = 8 ∧
    (stOctConv.getSlot 0).val_off = stOctSet.header.val_brk ∧
    bytesToU64 (readBytes stOctConv.values stOctSet.header.val_brk 8)
      = convertValue
          (readBytes stOctSet.values (stOctSet.getSlot 0).val_off
            (stOctSet.getSlot 0).val_len)
          (stOctSet.getSlot 0).val_len % 2 ^ 64 ∧
    (∀ (c : Nat) (rest : List Nat), c ≠ 48 →
      strtoull0 (c :: rest) = parseDigitsAcc 10 decDigitVal (c :: rest) 0) :=
  c5_biguint_conversion stOctSet stOctConv [97] 4 0
    (by decide) (by decide) (by rfl) (by decide) (by decide) (by decide)

/-! ## C6: the bump region overlaps the value arena (code bug) -/

/-- `stMini` after `splinter_set("a", {65}, 1)`; the key `"a"` hashes to an
even value, so it occupies slot 0 (whose arena partition starts at offset 0). -/
def stTwoA : Store := ((splinter_set (some stMini) [97] [65]).2).getD stMini

/-- `stTwoA` after `splinter_set("b", "7", 1)`; `"b"` hashes odd and occupies
slot 1 (partition offset 8). -/
def stTwoAB : Store := ((splinter_set (some stTwoA) [98] [55]).2).getD stTwoA

/-- `stTwoAB` after `splinter_set_named_type("b", SPL_SLOT_TYPE_BIGUINT)`. -/
def stTwoConv : Store :=
  ((splinter_set_named_type (some stTwoAB) [98] 4).2).getD stTwoAB

/-- C6 evaluated at the failing input: `H->val_brk` is initialised to 0 by
`splinter_create` (and checked against `val_sz`, the *total* region size), so
the first BIGUINT conversion re-points the slot at arena offset 0 — *inside*
the initial arena and inside slot 0's partition, not beyond
`slots × max_val_sz` as the claim (and the spec's arena-ownership discipline)
requires.  The conversion write destroys slot 0's live value: key `"a"`'s
stored byte 65 becomes 7, and a subsequent `get("a")` returns the corrupted
byte. -/
theorem c6_bump_overlap_bug :
    (splinter_set_named_type (some stTwoAB) [98] 4).1 = 0 ∧
    (stTwoConv.getSlot 1).val_off = 0 ∧
    (stTwoConv.getSlot 1).val_len = 8 ∧
    (stTwoConv.getSlot 0).val_off = 0 ∧
    (stTwoConv.getSlot 0).val_len = 1 ∧
    ¬ stTwoAB.header.slots * stTwoAB.header.max_val_sz ≤ (stTwoConv.getSlot 1).val_off ∧
    stTwoAB.values 0 = 65 ∧
    stTwoConv.values 0 = 7 ∧
    (splinter_get (some stTwoConv) [97] (some [0]) 1).2.2 = some [7] := by
  exact ⟨by decide, by decide, by decide, by decide, by decide, by decide,
    by decide, by decide, by decide⟩

/-! ## C7: create-on-existing (code bug in the persistent build) -/

/-- C7 evaluated on both build modes with an existing backing object: the
anonymous build (`shm_open` with `O_CREAT | O_EXCL`) fails as claimed, but the
persistent build (`open` with `O_CREAT` and no `O_EXCL`) succeeds and goes on
to reinitialize the file — contradicting the claim and the function's own
documentation ("The function fails if the store already exists"). -/
theorem c7_create_excl :
    splinter_create_ret false true 16 64 = -1 ∧
    splinter_create_ret true true 16 64 = 0 := by
  exact ⟨by decide, by decide⟩

/-! ## C8: buffer-too-small get -/

/-- C8: for an occupied key (probe resolves to slot `p`) at a quiescent
moment, `splinter_get` with a non-null buffer smaller than `val_len` returns
the `EMSGSIZE` condition, writes `val_len` through `out_sz`, and returns the
caller's buffer unchanged. -/
theorem c8_get_buffer_too_small (st : Store) (k buf : List Nat) (p : Nat)
    (buf_sz : Nat)
    (hpf : probeFind st (fnv1a k) k = some p)
    (heven : (st.getSlot p).epoch % 2 = 0)
    (hsz : buf_sz < (st.getSlot p).val_len) :
    splinter_get (some st) k (some buf) buf_sz
      = (GetResult.msgSizeErr, some (st.getSlot p).val_len, some buf) := by
  simp only [splinter_get, hpf]
  rw [if_neg (by omega), if_pos hsz]

/-- C8 witness: on the concrete 2-byte value under key `"a"`, a 1-byte buffer
yields `EMSGSIZE`, `out_sz = 2`, and an untouched buffer. -/
theorem c8_witness :
    splinter_get (some stMiniSet) [97] (some [5]) 1
      = (GetResult.msgSizeErr, some (stMiniSet.getSlot 0).val_len, some [5]) :=
  c8_get_buffer_too_small stMiniSet [97] [5] 0 1 (by decide) (by decide) (by decide)

/-! ## C9: operations on an unmapped region -/

/-- C9: with no region mapped (`H == NULL`, modelled as the `none` state),
every keyed operation returns a negative code and leaves the (absent) store
untouched, `splinter_get_raw_ptr` returns NULL, and `splinter_get_epoch` and
`splinter_get_signal_count` return 0. -/
theorem c9_no_region (k v : List Nat) (buf : Option (List Nat))
    (sz g mk mask : Nat) (op : IntegerOp) (m : Option Nat) :
    splinter_set none k v = (-1, none) ∧
    (splinter_get none k buf sz).1 = GetResult.notFound ∧
    (splinter_get none k buf sz).1.retCode = -1 ∧
    (splinter_get none k buf sz).2.2 = buf ∧
    splinter_unset none k = (-2, none) ∧
    splinter_poll_entry none k = PollEntry.noRegion ∧
    (splinter_poll_entry none k).retCode = some (-1) ∧
    splinter_integer_op none k op m = (-2, none) ∧
    splinter_set_label none k mask = (-1, none) ∧
    splinter_set_named_type none k mask = (-1, none) ∧
    splinter_list none mk = (-1, []) ∧
    splinter_watch_register none k g = (-1, none) ∧
    splinter_watch_unregister none k g = (-1, none) ∧
    splinter_watch_label_register none mask g = (-1, none) ∧
    splinter_get_raw_ptr none k = none ∧
    splinter_get_epoch none k = 0 ∧
    splinter_get_signal_count none g = 0 := by
  exact ⟨rfl, rfl, rfl, rfl, rfl, rfl, rfl, rfl, rfl, rfl, rfl, rfl, rfl, rfl,
    rfl, rfl, rfl⟩

/-! ## C10: watch_label_register frame conditions -/

/-- C10: for `group_id < 64`, `splinter_watch_label_register` returns 0 and
stores the group id into `bloom_watches[i]` exactly for the bits `i` set in
the mask, leaving the other `bloom_watches` entries, every slot, every signal
counter, and every other header field unchanged; for `group_id ≥ 64` it
returns −1 and changes nothing. -/
theorem c10_watch_label_register (st : Store) (mask g : Nat) :
    (g < 64 →
      ∃ st', splinter_watch_label_register (some st) mask g = (0, some st') ∧
        (∀ b, b < 64 → mask.testBit b = true → st'.header.bloom_watches b = g) ∧
        (∀ b, ¬ (b < 64 ∧ mask.testBit b = true) →
          st'.header.bloom_watches b = st.header.bloom_watches b) ∧
        st'.slotTable = st.slotTable ∧
        st'.values = st.values ∧
        st'.header.signal_groups = st.header.signal_groups ∧
        st'.header.epoch = st.header.epoch ∧
        st'.header.magic = st.header.magic ∧
        st'.header.version = st.header.version ∧
        st'.header.slots = st.header.slots ∧
        st'.header.max_val_sz = st.header.max_val_sz ∧
        st'.header.core_flags = st.header.core_flags ∧
        st'.header.user_flags = st.header.user_flags ∧
        st'.header.val_brk = st.header.val_brk ∧
        st'.header.val_sz = st.header.val_sz ∧
        st'.header.alignment = st.header.alignment ∧
        st'.header.parse_failures = st.header.parse_failures ∧
        st'.header.last_failure_epoch = st.header.last_failure_epoch) ∧
    (64 ≤ g → splinter_watch_label_register (some st) mask g = (-1, some st)) := by
  constructor
  · intro hg
    have hng : ¬ SPLINTER_MAX_GROUPS ≤ g := by
      simp only [SPLINTER_MAX_GROUPS]
      omega
    refine ⟨{ st with header := { st.header with
        bloom_watches := fun b =>
          if b < 64 ∧ mask.testBit b then g else st.header.bloom_watches b } },
      ?_, ?_, ?_, rfl, rfl, rfl, rfl, rfl, rfl, rfl, rfl, rfl, rfl, rfl, rfl,
      rfl, rfl, rfl⟩
    · simp only [splinter_watch_label_register]
      rw [if_neg hng]
    · intro b hb hm
      show (if b < 64 ∧ mask.testBit b then g else st.header.bloom_watches b) = g
      rw [if_pos ⟨hb, hm⟩]
    · intro b hb
      show (if b < 64 ∧ mask.testBit b then g else st.header.bloom_watches b)
        = st.header.bloom_watches b
      rw [if_neg hb]
  · intro hg
    have hng : SPLINTER_MAX_GROUPS ≤ g := by
      simp only [SPLINTER_MAX_GROUPS]
      omega
    simp only [splinter_watch_label_register]
    rw [if_pos hng]

/-- C10 witness: registering mask `0b101` to group 3 on the concrete store,
and the rejection of group 64. -/
theorem c10_witness :
    (∃ st', splinter_watch_label_register (some stMini) 5 3 = (0, some st') ∧
        (∀ b, b < 64 → (5 : Nat).testBit b = true → st'.header.bloom_watches b = 3) ∧
        (∀ b, ¬ (b < 64 ∧ (5 : Nat).testBit b = true) →
          st'.header.bloom_watches b = stMini.header.bloom_watches b) ∧
        st'.slotTable = stMini.slotTable ∧
        st'.values = stMini.values ∧
        st'.header.signal_groups = stMini.header.signal_groups ∧
        st'.header.epoch = stMini.header.epoch ∧
        st'.header.magic = stMini.header.magic ∧
        st'.header.version = stMini.header.version ∧
        st'.header.slots = stMini.header.slots ∧
        st'.header.max_val_sz = stMini.header.max_val_sz ∧
        st'.header.core_flags = stMini.header.core_flags ∧
        st'.header.user_flags = stMini.header.user_flags ∧
        st'.header.val_brk = stMini.header.val_brk ∧
        st'.header.val_sz = stMini.header.val_sz ∧
        st'.header.alignment = stMini.header.alignment ∧
        st'.header.parse_failures = stMini.header.parse_failures ∧
        st'.header.last_failure_epoch = stMini.header.last_failure_epoch) ∧
    splinter_watch_label_register (some stMini) 5 64 = (-1, some stMini) :=
  ⟨(c10_watch_label_register stMini 5 3).1 (by decide),
   (c10_watch_label_register stMini 5 64).2 (by decide)⟩

end Splinter
